import Mathlib

/-!
# aws-operator: reconciliation resources

A shallow embedding of the stack resources of the operator
(`service/controller/v25/resource/tcdp`, `service/controller/v26/resource/cpi`)
and of the numeric policy functions of the tenant data plane template
parameters, followed by the properties proved about them.

Go `int` values are integers; the only arithmetic performed on them goes
through `float32`, which is modelled exactly: a `float32` value is the rational
number it denotes, and every operation rounds its exact result to the nearest
value with a 24 bit significand, ties to even.
-/

namespace AwsOperator

/-! ## Go primitives -/

namespace Go

/-- Position of the leading binary digit of `n`, found by halving at most
`fuel` times; `log2floor n n` is the integer part of the binary logarithm. -/
def log2floor : Nat → Nat → Nat
  | 0, _ => 0
  | fuel + 1, n => if 2 ≤ n then log2floor fuel (n / 2) + 1 else 0

/-- Exponent of the binade of a non-zero rational: the integer `e` with
`2 ^ e ≤ |x| < 2 ^ (e + 1)`. -/
def ilog2 (x : ℚ) : Int :=
  let c : Int := (log2floor x.num.natAbs x.num.natAbs : Int) - (log2floor x.den x.den : Int)
  if (2 : ℚ) ^ c ≤ |x| then c else c - 1

/-- Spacing of the `float32` values around `x`: 24 significant bits in the
normal range, the fixed spacing `2 ^ (-149)` below `2 ^ (-126)`. -/
def quantum (x : ℚ) : ℚ := 2 ^ (max (ilog2 x) (-126) - 23)

/-- Nearest integer, ties to the even one. -/
def roundHalfEven (y : ℚ) : Int :=
  let f := ⌊y⌋
  if y - f < 1 / 2 then f
  else if 1 / 2 < y - f then f + 1
  else if f % 2 = 0 then f else f + 1

/-- The `float32` value nearest to the rational `x` (IEEE 754 binary32,
round to nearest, ties to even). Every value met by `workerCountRatio` is
below `2 ^ 64` in magnitude, far from the overflow threshold, so overflow to
infinity is not represented. -/
def float32 (x : ℚ) : ℚ :=
  if x = 0 then 0 else roundHalfEven (x / quantum x) * quantum x

/-- Go conversion `int(x)` of a floating point value: the fraction is
discarded (truncation towards zero). A value outside the range of the 64 bit
`int` has no result fixed by the language; amd64 produces the smallest `int`,
which is what is taken here. -/
def intOfFloat (x : ℚ) : Int :=
  let t : Int := if 0 ≤ x then ⌊x⌋ else ⌈x⌉
  if -2 ^ 63 ≤ t ∧ t < 2 ^ 63 then t else -2 ^ 63

/-- Decimal rendering `strconv.Itoa`. -/
def Itoa (i : Int) : String := toString i

/-- Upper casing `strings.ToUpper`, on ASCII letters. -/
def ToUpper (s : String) : String := String.mk (s.data.map Char.toUpper)

end Go

/-! ## Errors, custom object, controller context -/

/-- Modelled from the spec: the error values of the resource packages and of
their collaborators (`error.go` of each package and `microerror` are not under
src/). An error is represented by its cause: `notExists` is the provider's
"does not exist" error, `executionFailed`, `wrongType`, `notFound` and
`invalidConfig` are the package level causes, `other` is any other cause a
collaborator reports. -/
inductive Error where
  | notExists
  | executionFailed
  | wrongType
  | notFound
  | invalidConfig
  | other (cause : String)
deriving DecidableEq, Repr

namespace microerror

/-- Modelled from the spec: `microerror.Mask` annotates an error with the
place it passed through and keeps its cause. -/
def Mask (err : Error) : Error := err

end microerror

/-- Modelled from the spec: `IsNotExists` recognises the provider's "does not
exist" error; it is false for the nil error. -/
def IsNotExists (err : Option Error) : Bool :=
  match err with
  | some Error.notExists => true
  | _ => false

/-- One availability zone of the status of the custom object. -/
structure AvailabilityZone where
  Name : String
  SubnetCIDR : String
deriving DecidableEq, Repr

/-- The custom object `v1alpha1.AWSConfig`, by the values the accessors of
package `key` read from it. -/
structure AWSConfig where
  ClusterID : String
  CustomerID : String
  ScalingMin : Int
  ScalingMax : Int
  StatusAvailabilityZoneNames : List String
  PrivateSubnetNames : List String
  StatusNodePoolAvailabilityZones : List AvailabilityZone
  ImageID : Except Error String
  WorkerDockerVolumeSizeGB : Int
  WorkerInstanceType : String
  VersionBundleVersion : String
  PeerAccessRoleName : String

/-- The value handed to a resource as `obj interface{}`. -/
inductive Obj where
  | nil
  | awsConfig (cr : AWSConfig)
  | other (typeName : String)

namespace key

/-- Modelled from the spec: `key.ToCustomObject` (not under src/) yields the
custom object held by `obj` and fails with the wrong type error on any other
value. -/
def ToCustomObject (obj : Obj) : Except Error AWSConfig :=
  match obj with
  | Obj.awsConfig cr => Except.ok cr
  | _ => Except.error Error.wrongType

/-- Modelled from the spec: `key.MainHostPreStackName` (not under src/), the
deterministic name of the control plane initializer stack, derived from the
cluster ID and the role of the stack. -/
def MainHostPreStackName (cr : AWSConfig) : String :=
  "cluster-" ++ cr.ClusterID ++ "-host-setup"

/-- Modelled from the spec: `key.ClusterTags` (not under src/) as the test
`Test_Resource_Cloudformation_GetCloudFormationTags` expects it; the Go map is
listed in the order of the test. -/
def ClusterTags (cr : AWSConfig) (installationName : String) : List (String × String) :=
  [("kubernetes.io/cluster/" ++ cr.ClusterID, "owned"),
   ("giantswarm.io/cluster", cr.ClusterID),
   ("giantswarm.io/organization", cr.CustomerID),
   ("giantswarm.io/installation", installationName)]

end key

namespace cloudformation

/-- The constant `cloudformation.StackStatusCreateFailed` of the AWS SDK. -/
def StackStatusCreateFailed : String := "CREATE_FAILED"

/-- A `cloudformation.Tag`. -/
structure Tag where
  Key : String
  Value : String
deriving DecidableEq, Repr

/-- A `cloudformation.Stack`; `StackStatus` is a pointer and may be nil. -/
structure Stack where
  StackStatus : Option String
deriving DecidableEq, Repr

/-- The output `cloudformation.DescribeStacksOutput`. -/
structure DescribeStacksOutput where
  Stacks : List Stack
deriving DecidableEq, Repr

/-- The input `cloudformation.CreateStackInput`, by the fields the resources set. -/
structure CreateStackInput where
  Capabilities : List String
  EnableTerminationProtection : Bool
  StackName : String
  Tags : List Tag
  TemplateBody : String
deriving DecidableEq, Repr

/-- The CloudFormation client of one AWS account over provider states `σ`:
each call answers and moves the provider to its next state. -/
structure Client (σ : Type) where
  DescribeStacks : String → σ → Except Error DescribeStacksOutput × σ
  CreateStack : CreateStackInput → σ → Option Error × σ
  WaitUntilStackCreateComplete : String → σ → Option Error × σ

end cloudformation

namespace awstags

/-- Modelled from the spec: `awstags.NewCloudFormation` (not under src/) turns
each key and value into a CloudFormation tag. -/
def NewCloudFormation (tags : List (String × String)) : List cloudformation.Tag :=
  tags.map fun kv => { Key := kv.1, Value := kv.2 }

end awstags

namespace controllercontext

/-- The status tree of the controller context, by the fields the resources read. -/
structure Status where
  ControlPlaneVPCCIDR : String
  TenantClusterAWSAccountID : String
  TenantClusterVPCID : String
  TenantClusterTCCPASGDesiredCapacity : Int
  ClusterEncryptionKey : String

/-- The controller context: the CloudFormation clients of the control plane
and tenant cluster accounts, and the status tree. -/
structure Context (σ : Type) where
  ControlPlane : cloudformation.Client σ
  TenantCluster : cloudformation.Client σ
  Status : Status

/-- Modelled from the spec: `controllercontext.FromContext` (not under src/)
yields the controller context attached to the Go context and fails when none
is attached. -/
def FromContext {σ : Type} (ctx : Option (Context σ)) : Except Error (Context σ) :=
  match ctx with
  | some cc => Except.ok cc
  | none => Except.error Error.notFound

end controllercontext

/-- The AWS account a call is sent to. -/
inductive Account where
  | ControlPlane
  | TenantCluster
deriving DecidableEq, Repr

/-- A call a resource issues to a collaborator. -/
inductive Call where
  | DescribeStacks (account : Account) (StackName : String)
  | Render
  | CreateStack (account : Account) (input : cloudformation.CreateStackInput)
  | WaitUntilStackCreateComplete (account : Account) (StackName : String)
deriving DecidableEq, Repr

/-- How a call of a resource ends: it returns nil, returns an error, or
panics on a nil pointer. -/
inductive Outcome where
  | ok
  | error (err : Error)
  | panic
deriving DecidableEq, Repr

/-- The result of running a resource: how it ended, the provider state it
left, and the collaborator calls it issued, in order. -/
structure Run (σ : Type) where
  outcome : Outcome
  state : σ
  calls : List Call

/-- The value of the constant `capabilityNamesIAM` of both packages. -/
def capabilityNamesIAM : String := "CAPABILITY_NAMED_IAM"

/-- Whether a call is a `CreateStack` call. -/
def Call.isCreateStack : Call → Bool
  | Call.CreateStack _ _ => true
  | _ => false

/-- Whether a call is a `WaitUntilStackCreateComplete` call. -/
def Call.isWait : Call → Bool
  | Call.WaitUntilStackCreateComplete _ _ => true
  | _ => false

/-! ## Control plane initializer (`cpi/create.go`, `cpi/resource.go`) -/

namespace cpi

namespace template

/-- The IAM roles section `template.ParamsMainIAMRoles`. -/
structure ParamsMainIAMRoles where
  PeerAccessRoleName : String
  TenantAWSAccountID : String
deriving DecidableEq, Repr

/-- The parameter tree `template.ParamsMain` of the stack template. -/
structure ParamsMain where
  IAMRoles : ParamsMainIAMRoles
deriving DecidableEq, Repr

end template

/-- The package level collaborators of the resource that are not under src/:
the template renderer `template.Render` and the constant
`key.EnableTerminationProtection`. -/
structure Deps where
  Render : template.ParamsMain → Except Error String
  EnableTerminationProtection : Bool

/-- The resource `cpi.Resource` (its logger has no effect on results). -/
structure Resource where
  installationName : String

/-- The method `Resource.getCloudFormationTags` of `cpi/resource.go`. -/
def Resource.getCloudFormationTags (r : Resource) (customObject : AWSConfig) :
    List cloudformation.Tag :=
  awstags.NewCloudFormation (key.ClusterTags customObject r.installationName)

/-- The method `Resource.newIAMRolesParams` of `cpi/create.go`. -/
def Resource.newIAMRolesParams {σ : Type} (_r : Resource)
    (ctx : Option (controllercontext.Context σ)) (cr : AWSConfig) :
    Except Error template.ParamsMainIAMRoles :=
  match controllercontext.FromContext ctx with
  | Except.error err => Except.error (microerror.Mask err)
  | Except.ok cc =>
    Except.ok
      { PeerAccessRoleName := cr.PeerAccessRoleName
        TenantAWSAccountID := cc.Status.TenantClusterAWSAccountID }

/-- The part of `Resource.EnsureCreated` of `cpi/create.go` after the stack was
found absent: compute the template, request the creation, wait for it. -/
def Resource.createStack {σ : Type} (deps : Deps) (r : Resource)
    (ctx : Option (controllercontext.Context σ)) (cc : controllercontext.Context σ)
    (cr : AWSConfig) (s : σ) (calls : List Call) : Run σ :=
  match r.newIAMRolesParams ctx cr with
  | Except.error err => ⟨Outcome.error (microerror.Mask err), s, calls⟩
  | Except.ok iamRoles =>
  match deps.Render { IAMRoles := iamRoles } with
  | Except.error err => ⟨Outcome.error (microerror.Mask err), s, calls ++ [Call.Render]⟩
  | Except.ok templateBody =>
  let i : cloudformation.CreateStackInput :=
    { Capabilities := [capabilityNamesIAM]
      EnableTerminationProtection := deps.EnableTerminationProtection
      StackName := key.MainHostPreStackName cr
      Tags := r.getCloudFormationTags cr
      TemplateBody := templateBody }
  match cc.ControlPlane.CreateStack i s with
  | (some err, s2) =>
    ⟨Outcome.error (microerror.Mask err), s2,
      calls ++ [Call.Render, Call.CreateStack Account.ControlPlane i]⟩
  | (none, s2) =>
  match cc.ControlPlane.WaitUntilStackCreateComplete (key.MainHostPreStackName cr) s2 with
  | (some err, s3) =>
    ⟨Outcome.error (microerror.Mask err), s3,
      calls ++ [Call.Render, Call.CreateStack Account.ControlPlane i,
        Call.WaitUntilStackCreateComplete Account.ControlPlane (key.MainHostPreStackName cr)]⟩
  | (none, s3) =>
    ⟨Outcome.ok, s3,
      calls ++ [Call.Render, Call.CreateStack Account.ControlPlane i,
        Call.WaitUntilStackCreateComplete Account.ControlPlane (key.MainHostPreStackName cr)]⟩

/-- The method `Resource.EnsureCreated` of `cpi/create.go`: find the stack,
cancel when it exists, otherwise continue with `createStack`. The test
`len(o.Stacks) != 1` is the match on a one element list. -/
def Resource.EnsureCreated {σ : Type} (deps : Deps) (r : Resource)
    (ctx : Option (controllercontext.Context σ)) (obj : Obj) (s : σ) : Run σ :=
  match key.ToCustomObject obj with
  | Except.error err => ⟨Outcome.error (microerror.Mask err), s, []⟩
  | Except.ok cr =>
  match controllercontext.FromContext ctx with
  | Except.error err => ⟨Outcome.error (microerror.Mask err), s, []⟩
  | Except.ok cc =>
  let calls := [Call.DescribeStacks Account.ControlPlane (key.MainHostPreStackName cr)]
  match cc.ControlPlane.DescribeStacks (key.MainHostPreStackName cr) s with
  | (Except.error err, s1) =>
    if IsNotExists (some err) then r.createStack deps ctx cc cr s1 calls
    else ⟨Outcome.error (microerror.Mask err), s1, calls⟩
  | (Except.ok o, s1) =>
    match o.Stacks with
    | [stack] =>
      match stack.StackStatus with
      | none => ⟨Outcome.panic, s1, calls⟩
      | some status =>
        if status = cloudformation.StackStatusCreateFailed then
          ⟨Outcome.error Error.executionFailed, s1, calls⟩
        else ⟨Outcome.ok, s1, calls⟩
    | _ => ⟨Outcome.error Error.executionFailed, s1, calls⟩

end cpi

/-! ## Tenant cluster data plane: numeric policy (`tcdp/create.go`) -/

namespace tcdp

/-- The function `minDesiredWorkers` of `tcdp/create.go`. -/
def minDesiredWorkers (minWorkers maxWorkers statusDesiredCapacity : Int) : Int :=
  if statusDesiredCapacity > maxWorkers then maxWorkers
  else if statusDesiredCapacity > minWorkers then statusDesiredCapacity
  else minWorkers

/-- The value of the variable `rounded` of `workerCountRatio` when the function
returns. The product and the sum are `float32` operations, each rounding its
exact result (no fused multiply-add). -/
def workerCountRatioRounded (workers : Int) (ratio : ℚ) : Int :=
  let value := Go.float32 (Go.float32 (workers : ℚ) * ratio)
  let rounded := Go.intOfFloat (Go.float32 (value + 1 / 2))
  if rounded = 0 then 1 else rounded

/-- The function `workerCountRatio` of `tcdp/create.go`: the decimal rendering
of `rounded`. -/
def workerCountRatio (workers : Int) (ratio : ℚ) : String :=
  Go.Itoa (workerCountRatioRounded workers ratio)

/-- Rounding half up: the integer part of `x + 1 / 2`. -/
def roundHalfUp (x : ℚ) : Int := ⌊x + 1 / 2⌋

/-- The batch size as the specification words it: the decimal string of
round-half-up of the exact product of the worker count and the ratio, with 0
replaced by 1. -/
def workerCountRatioSpec (workers : Int) (ratio : ℚ) : String :=
  Go.Itoa (if roundHalfUp ((workers : ℚ) * ratio) = 0 then 1
    else roundHalfUp ((workers : ℚ) * ratio))

/-! ### Tenant cluster data plane: the resource (`tcdp/create.go`) -/

namespace template

/-- The auto scaling group section of the parameter tree. -/
structure ParamsMainAutoScalingGroup where
  AvailabilityZones : List String
  ClusterID : String
  DesiredCapacity : Int
  MaxBatchSize : String
  MaxSize : Int
  MinInstancesInService : String
  MinSize : Int
  Subnets : List String
deriving DecidableEq, Repr

/-- The outputs section of the parameter tree. -/
structure ParamsMainOutputs where
  CloudConfigVersion : String
  DockerVolumeSizeGB : String
  InstanceImage : String
  InstanceType : String
  VersionBundleVersion : String
deriving DecidableEq, Repr

/-- The security groups section of the parameter tree. -/
structure ParamsMainSecurityGroups where
  ClusterID : String
  ControlPlaneVPCCIDR : String
  TenantClusterVPCID : String
deriving DecidableEq, Repr

/-- One subnet of the subnets section of the parameter tree. -/
structure ParamsMainSubnetsSubnet where
  AvailabilityZone : String
  CIDR : String
  Name : String
  TenantClusterVPCID : String
deriving DecidableEq, Repr

/-- The parameter tree `template.ParamsMain` (`template/params_main.go`), by the
sections `EnsureCreated` fills in. -/
structure ParamsMain where
  AutoScalingGroup : ParamsMainAutoScalingGroup
  Outputs : ParamsMainOutputs
  SecurityGroups : ParamsMainSecurityGroups
  Subnets : List ParamsMainSubnetsSubnet
deriving DecidableEq, Repr

end template

/-- The package level collaborators of the resource that are not under src/:
the template renderer `template.Render`, the constants
`key.EnableTerminationProtection` and `key.CloudConfigVersion`, and the two
identifiers the file names without declaring them: `a` in `stackName`, and
`minDesiredNodes` in `newAutoScalingGroup` (the local declared there is
spelled `mindDesiredNodes`). -/
structure Deps where
  Render : template.ParamsMain → Except Error String
  EnableTerminationProtection : Bool
  CloudConfigVersion : String
  a : String
  minDesiredNodes : Int

/-- The resource `tcdp.Resource` (its logger has no effect on results). -/
structure Resource where
  installationName : String

/-- The method `Resource.getCloudFormationTags` of the resource. -/
def Resource.getCloudFormationTags (r : Resource) (customObject : AWSConfig) :
    List cloudformation.Tag :=
  awstags.NewCloudFormation (key.ClusterTags customObject r.installationName)

/-- The function `stackName` of `tcdp/create.go`: it formats the free
identifier `a`, not its argument. -/
def stackName (a : String) (_cr : AWSConfig) : String :=
  "cluster-" ++ Go.ToUpper a ++ "-tcdp"

/-- The function `subnetNameWithAvailabilityZone` of `tcdp/create.go`. -/
def subnetNameWithAvailabilityZone (a : String) : String :=
  "NodePoolSubnet-" ++ Go.ToUpper a

/-- The method `Resource.newAutoScalingGroup` of `tcdp/create.go`. The result
of `minDesiredWorkers` is held by the local `mindDesiredNodes`, from which the
two batch sizes are computed; the field `DesiredCapacity` is assigned the
other identifier, `minDesiredNodes`, which the file does not declare. -/
def Resource.newAutoScalingGroup {σ : Type} (deps : Deps) (_r : Resource)
    (ctx : Option (controllercontext.Context σ)) (cr : AWSConfig) :
    Except Error template.ParamsMainAutoScalingGroup :=
  match controllercontext.FromContext ctx with
  | Except.error err => Except.error (microerror.Mask err)
  | Except.ok cc =>
    let mindDesiredNodes :=
      minDesiredWorkers cr.ScalingMin cr.ScalingMax cc.Status.TenantClusterTCCPASGDesiredCapacity
    Except.ok
      { AvailabilityZones := cr.StatusAvailabilityZoneNames
        ClusterID := cr.ClusterID
        DesiredCapacity := deps.minDesiredNodes
        MaxBatchSize := workerCountRatio mindDesiredNodes (Go.float32 (3 / 10))
        MaxSize := cr.ScalingMax
        MinInstancesInService := workerCountRatio mindDesiredNodes (Go.float32 (7 / 10))
        MinSize := cr.ScalingMin
        Subnets := cr.PrivateSubnetNames }

/-- The method `Resource.newOutputs` of `tcdp/create.go`. -/
def Resource.newOutputs (deps : Deps) (_r : Resource) (cr : AWSConfig) :
    Except Error template.ParamsMainOutputs :=
  match cr.ImageID with
  | Except.error err => Except.error (microerror.Mask err)
  | Except.ok imageID =>
    Except.ok
      { CloudConfigVersion := deps.CloudConfigVersion
        DockerVolumeSizeGB := Go.Itoa cr.WorkerDockerVolumeSizeGB
        InstanceImage := imageID
        InstanceType := cr.WorkerInstanceType
        VersionBundleVersion := cr.VersionBundleVersion }

/-- The method `Resource.newSecurityGroups` of `tcdp/create.go`. -/
def Resource.newSecurityGroups {σ : Type} (_r : Resource)
    (ctx : Option (controllercontext.Context σ)) (cr : AWSConfig) :
    Except Error template.ParamsMainSecurityGroups :=
  match controllercontext.FromContext ctx with
  | Except.error err => Except.error (microerror.Mask err)
  | Except.ok cc =>
    Except.ok
      { ClusterID := cr.ClusterID
        ControlPlaneVPCCIDR := cc.Status.ControlPlaneVPCCIDR
        TenantClusterVPCID := cc.Status.TenantClusterVPCID }

/-- The method `Resource.newSubnets` of `tcdp/create.go`. -/
def Resource.newSubnets {σ : Type} (_r : Resource)
    (ctx : Option (controllercontext.Context σ)) (cr : AWSConfig) :
    Except Error (List template.ParamsMainSubnetsSubnet) :=
  match controllercontext.FromContext ctx with
  | Except.error err => Except.error (microerror.Mask err)
  | Except.ok cc =>
    Except.ok
      (cr.StatusNodePoolAvailabilityZones.map fun a =>
        { AvailabilityZone := a.Name
          CIDR := a.SubnetCIDR
          Name := subnetNameWithAvailabilityZone a.Name
          TenantClusterVPCID := cc.Status.TenantClusterVPCID })

/-- The parameter computation of `Resource.EnsureCreated` of `tcdp/create.go`:
the four sections in source order, the first error returned. -/
def Resource.newParams {σ : Type} (deps : Deps) (r : Resource)
    (ctx : Option (controllercontext.Context σ)) (cr : AWSConfig) :
    Except Error template.ParamsMain :=
  match r.newAutoScalingGroup deps ctx cr with
  | Except.error err => Except.error (microerror.Mask err)
  | Except.ok autoScalingGroup =>
  match r.newOutputs deps cr with
  | Except.error err => Except.error (microerror.Mask err)
  | Except.ok outputs =>
  match r.newSecurityGroups ctx cr with
  | Except.error err => Except.error (microerror.Mask err)
  | Except.ok securityGroups =>
  match r.newSubnets ctx cr with
  | Except.error err => Except.error (microerror.Mask err)
  | Except.ok subnets =>
    Except.ok
      { AutoScalingGroup := autoScalingGroup
        Outputs := outputs
        SecurityGroups := securityGroups
        Subnets := subnets }

/-- The part of `Resource.EnsureCreated` of `tcdp/create.go` after the stack
was found absent: compute the template, request the creation under
`stackName`, wait for the stack named `key.MainHostPreStackName`. -/
def Resource.createStack {σ : Type} (deps : Deps) (r : Resource)
    (ctx : Option (controllercontext.Context σ)) (cc : controllercontext.Context σ)
    (cr : AWSConfig) (s : σ) (calls : List Call) : Run σ :=
  match r.newParams deps ctx cr with
  | Except.error err => ⟨Outcome.error err, s, calls⟩
  | Except.ok params =>
  match deps.Render params with
  | Except.error err => ⟨Outcome.error (microerror.Mask err), s, calls ++ [Call.Render]⟩
  | Except.ok templateBody =>
  let i : cloudformation.CreateStackInput :=
    { Capabilities := [capabilityNamesIAM]
      EnableTerminationProtection := deps.EnableTerminationProtection
      StackName := stackName deps.a cr
      Tags := r.getCloudFormationTags cr
      TemplateBody := templateBody }
  match cc.TenantCluster.CreateStack i s with
  | (some err, s2) =>
    ⟨Outcome.error (microerror.Mask err), s2,
      calls ++ [Call.Render, Call.CreateStack Account.TenantCluster i]⟩
  | (none, s2) =>
  match cc.TenantCluster.WaitUntilStackCreateComplete (key.MainHostPreStackName cr) s2 with
  | (some err, s3) =>
    ⟨Outcome.error (microerror.Mask err), s3,
      calls ++ [Call.Render, Call.CreateStack Account.TenantCluster i,
        Call.WaitUntilStackCreateComplete Account.TenantCluster (key.MainHostPreStackName cr)]⟩
  | (none, s3) =>
    ⟨Outcome.ok, s3,
      calls ++ [Call.Render, Call.CreateStack Account.TenantCluster i,
        Call.WaitUntilStackCreateComplete Account.TenantCluster (key.MainHostPreStackName cr)]⟩

/-- The method `Resource.EnsureCreated` of `tcdp/create.go`: find the stack
named `key.MainHostPreStackName`, cancel when it exists, otherwise continue
with `createStack`. The test `len(o.Stacks) != 1` is the match on a one element
list. -/
def Resource.EnsureCreated {σ : Type} (deps : Deps) (r : Resource)
    (ctx : Option (controllercontext.Context σ)) (obj : Obj) (s : σ) : Run σ :=
  match key.ToCustomObject obj with
  | Except.error err => ⟨Outcome.error (microerror.Mask err), s, []⟩
  | Except.ok cr =>
  match controllercontext.FromContext ctx with
  | Except.error err => ⟨Outcome.error (microerror.Mask err), s, []⟩
  | Except.ok cc =>
  let calls := [Call.DescribeStacks Account.TenantCluster (key.MainHostPreStackName cr)]
  match cc.TenantCluster.DescribeStacks (key.MainHostPreStackName cr) s with
  | (Except.error err, s1) =>
    if IsNotExists (some err) then r.createStack deps ctx cc cr s1 calls
    else ⟨Outcome.error (microerror.Mask err), s1, calls⟩
  | (Except.ok o, s1) =>
    match o.Stacks with
    | [stack] =>
      match stack.StackStatus with
      | none => ⟨Outcome.panic, s1, calls⟩
      | some status =>
        if status = cloudformation.StackStatusCreateFailed then
          ⟨Outcome.error Error.executionFailed, s1, calls⟩
        else ⟨Outcome.ok, s1, calls⟩
    | _ => ⟨Outcome.error Error.executionFailed, s1, calls⟩

end tcdp

/-! ## A provider model and sample inputs -/

/-- A provider state: the stacks that exist, by name, with their status. -/
abbrev Store := List (String × String)

/-- A CloudFormation client over `Store`: a stack is described when it is
recorded and reported as not existing otherwise, creation records the stack as
complete and is refused for a recorded name, and waiting returns at once. -/
def Store.client : cloudformation.Client Store where
  DescribeStacks name s :=
    match s.lookup name with
    | some status => (Except.ok { Stacks := [{ StackStatus := some status }] }, s)
    | none => (Except.error Error.notExists, s)
  CreateStack i s :=
    match s.lookup i.StackName with
    | some _ => (some (Error.other "AlreadyExistsException"), s)
    | none => (none, (i.StackName, "CREATE_COMPLETE") :: s)
  WaitUntilStackCreateComplete _ s := (none, s)

/-- The property of a stack client under which idempotence is claimed: after
a successful `CreateStack` and a successful wait for the created name,
`DescribeStacks` of that name returns that one stack in a status other than
`CREATE_FAILED`. -/
def CreatedIsDescribed {σ : Type} (c : cloudformation.Client σ) : Prop :=
  ∀ (i : cloudformation.CreateStackInput) (s s2 s3 : σ),
    c.CreateStack i s = (none, s2) →
    c.WaitUntilStackCreateComplete i.StackName s2 = (none, s3) →
    ∃ status s4,
      c.DescribeStacks i.StackName s3 = (Except.ok { Stacks := [{ StackStatus := some status }] }, s4) ∧
      status ≠ cloudformation.StackStatusCreateFailed

namespace sample

/-- The custom object of the tags test, with a worker pool of 3 to 10 nodes. -/
def cr : AWSConfig where
  ClusterID := "5xchu"
  CustomerID := "giantswarm"
  ScalingMin := 3
  ScalingMax := 10
  StatusAvailabilityZoneNames := ["eu-central-1a"]
  PrivateSubnetNames := ["PrivateSubnet"]
  StatusNodePoolAvailabilityZones := [{ Name := "eu-central-1a", SubnetCIDR := "10.1.1.0/24" }]
  ImageID := Except.ok "ami-0123"
  WorkerDockerVolumeSizeGB := 100
  WorkerInstanceType := "m5.large"
  VersionBundleVersion := "6.0.0"
  PeerAccessRoleName := "5xchu-vpc-peer-access"

/-- A status tree with every field discovered. -/
def status : controllercontext.Status where
  ControlPlaneVPCCIDR := "10.0.0.0/16"
  TenantClusterAWSAccountID := "123456789012"
  TenantClusterVPCID := "vpc-1"
  TenantClusterTCCPASGDesiredCapacity := 5
  ClusterEncryptionKey := ""

/-- A controller context whose two clients are `Store.client`. -/
def cc : controllercontext.Context Store where
  ControlPlane := Store.client
  TenantCluster := Store.client
  Status := status

/-- Collaborators of the control plane initializer whose renderer succeeds. -/
def cpiDeps : cpi.Deps where
  Render _ := Except.ok "template"
  EnableTerminationProtection := true

/-- Collaborators of the control plane initializer whose renderer fails. -/
def cpiDepsRenderFails : cpi.Deps where
  Render _ := Except.error (Error.other "render")
  EnableTerminationProtection := true

/-- Collaborators of the tenant data plane whose renderer succeeds; the free
identifier of `stackName` is taken to be the cluster ID, the free identifier
of `newAutoScalingGroup` to be 0. -/
def tcdpDeps : tcdp.Deps where
  Render _ := Except.ok "template"
  EnableTerminationProtection := true
  CloudConfigVersion := "v_4_9_0"
  a := "5xchu"
  minDesiredNodes := 0

/-- A control plane initializer resource. -/
def cpiResource : cpi.Resource where
  installationName := "test-install"

/-- A tenant data plane resource. -/
def tcdpResource : tcdp.Resource where
  installationName := "test-install"

/-- A provider state in which the stack of the sample cluster failed to create. -/
def failedStore : Store := [("cluster-5xchu-host-setup", "CREATE_FAILED")]

/-- A provider state in which the stack of the sample cluster is complete. -/
def completeStore : Store := [("cluster-5xchu-host-setup", "CREATE_COMPLETE")]

/-- A client whose every call fails with a throttling error. -/
def throttledClient : cloudformation.Client Store where
  DescribeStacks _ s := (Except.error (Error.other "Throttling"), s)
  CreateStack _ s := (some (Error.other "Throttling"), s)
  WaitUntilStackCreateComplete _ s := (some (Error.other "Throttling"), s)

/-- A controller context whose two clients are throttled. -/
def throttledCC : controllercontext.Context Store where
  ControlPlane := throttledClient
  TenantCluster := throttledClient
  Status := status

end sample

/-! ## Cluster resource (`tccp/resource.go`) -/

/-- A dependency held through a Go interface value: the implementation behind
it, by name. The nil interface is `none` of `Option Handle`. -/
structure Handle where
  name : String
deriving DecidableEq, Repr

namespace cloudformation

/-- The input `cloudformation.DeleteStackInput`. -/
structure DeleteStackInput where
  StackName : String
deriving DecidableEq, Repr

/-- The input `cloudformation.UpdateStackInput`, by the fields the resource sets. -/
structure UpdateStackInput where
  Capabilities : List String
  StackName : String
  TemplateBody : String
deriving DecidableEq, Repr

/-- The zero value `CreateStackInput{}`. -/
def CreateStackInput.zero : CreateStackInput :=
  { Capabilities := [], EnableTerminationProtection := false, StackName := "", Tags := [],
    TemplateBody := "" }

/-- The zero value `DeleteStackInput{}`. -/
def DeleteStackInput.zero : DeleteStackInput := { StackName := "" }

/-- The zero value `UpdateStackInput{}`. -/
def UpdateStackInput.zero : UpdateStackInput :=
  { Capabilities := [], StackName := "", TemplateBody := "" }

end cloudformation

namespace tccp

/-- The constant `Name` of `tccp/resource.go`. -/
def Name : String := "tccpv24"

/-- The configuration `tccp.Config`; `W` is the type `adapter.APIWhitelist`,
whose declaration is not under src/. -/
structure Config (W : Type) where
  APIWhitelist : W
  EncrypterRoleManager : Option Handle
  G8sClient : Option Handle
  Logger : Option Handle
  AdvancedMonitoringEC2 : Bool
  EncrypterBackend : String
  GuestPrivateSubnetMaskBits : Int
  GuestPublicSubnetMaskBits : Int
  InstallationName : String
  PublicRouteTables : String
  Route53Enabled : Bool

/-- The resource `tccp.Resource`. -/
structure Resource (W : Type) where
  apiWhiteList : W
  encrypterRoleManager : Option Handle
  g8sClient : Option Handle
  logger : Option Handle
  encrypterBackend : String
  guestPrivateSubnetMaskBits : Int
  guestPublicSubnetMaskBits : Int
  installationName : String
  monitoring : Bool
  publicRouteTables : String
  route53Enabled : Bool

/-- The function `New` of `tccp/resource.go`. -/
def New {W : Type} (config : Config W) : Except Error (Resource W) :=
  if config.G8sClient = none then Except.error Error.invalidConfig
  else if config.Logger = none then Except.error Error.invalidConfig
  else if config.EncrypterBackend = "" then Except.error Error.invalidConfig
  else
    Except.ok
      { apiWhiteList := config.APIWhitelist
        encrypterRoleManager := config.EncrypterRoleManager
        g8sClient := config.G8sClient
        logger := config.Logger
        encrypterBackend := config.EncrypterBackend
        guestPrivateSubnetMaskBits := config.GuestPrivateSubnetMaskBits
        guestPublicSubnetMaskBits := config.GuestPublicSubnetMaskBits
        installationName := config.InstallationName
        monitoring := config.AdvancedMonitoringEC2
        publicRouteTables := config.PublicRouteTables
        route53Enabled := config.Route53Enabled }

/-- The method `Resource.Name` of `tccp/resource.go`. -/
def Resource.Name {W : Type} (_r : Resource W) : String := tccp.Name

/-- The method `Resource.getCloudFormationTags` of `tccp/resource.go`. -/
def Resource.getCloudFormationTags {W : Type} (r : Resource W) (customObject : AWSConfig) :
    List cloudformation.Tag :=
  awstags.NewCloudFormation (key.ClusterTags customObject r.installationName)

/-- A value handed to a converter as `v interface{}`: nil, a value of one of
the four types the converters expect, or a value of any other type. `S` is
the type `StackState`, whose declaration is not under src/. -/
inductive Value (S : Type) where
  | nil
  | createStackInput (v : cloudformation.CreateStackInput)
  | deleteStackInput (v : cloudformation.DeleteStackInput)
  | stackState (v : S)
  | updateStackInput (v : cloudformation.UpdateStackInput)
  | other (typeName : String)

/-- The function `toCreateStackInput` of `tccp/resource.go`. -/
def toCreateStackInput {S : Type} (v : Value S) : Except Error cloudformation.CreateStackInput :=
  match v with
  | Value.nil => Except.ok cloudformation.CreateStackInput.zero
  | Value.createStackInput createStackInput => Except.ok createStackInput
  | _ => Except.error Error.wrongType

/-- The function `toDeleteStackInput` of `tccp/resource.go`. -/
def toDeleteStackInput {S : Type} (v : Value S) : Except Error cloudformation.DeleteStackInput :=
  match v with
  | Value.nil => Except.ok cloudformation.DeleteStackInput.zero
  | Value.deleteStackInput deleteStackInput => Except.ok deleteStackInput
  | _ => Except.error Error.wrongType

/-- The function `toStackState` of `tccp/resource.go`; `zero` is the zero
value `StackState{}`. -/
def toStackState {S : Type} (zero : S) (v : Value S) : Except Error S :=
  match v with
  | Value.nil => Except.ok zero
  | Value.stackState stackState => Except.ok stackState
  | _ => Except.error Error.wrongType

/-- The function `toUpdateStackInput` of `tccp/resource.go`. -/
def toUpdateStackInput {S : Type} (v : Value S) : Except Error cloudformation.UpdateStackInput :=
  match v with
  | Value.nil => Except.ok cloudformation.UpdateStackInput.zero
  | Value.updateStackInput updateStackInput => Except.ok updateStackInput
  | _ => Except.error Error.wrongType

end tccp

/-! ## Encryption key resource (`encryptionkey/create.go`) -/

namespace encryptionkey

/-- The encrypter of the resource over provider states `σ`. Its two methods
receive the Go context and the custom object; they answer from the provider
and leave the status tree of the controller context alone. -/
structure Encrypter (σ : Type) where
  EnsureCreatedEncryptionKey : AWSConfig → σ → Option Error × σ
  EncryptionKey : AWSConfig → σ → Except Error String × σ

/-- The resource `encryptionkey.Resource`. -/
structure Resource (σ : Type) where
  encrypter : Encrypter σ

/-- The result of `EnsureCreated`: how it ended, the provider state it left,
and the Go context with the controller context as the call left it. -/
structure Result (σ τ : Type) where
  outcome : Outcome
  state : σ
  ctx : Option (controllercontext.Context τ)

/-- The method `Resource.EnsureCreated` of `encryptionkey/create.go`. -/
def Resource.EnsureCreated {σ τ : Type} (r : Resource σ)
    (ctx : Option (controllercontext.Context τ)) (obj : Obj) (s : σ) : Result σ τ :=
  match key.ToCustomObject obj with
  | Except.error err => ⟨Outcome.error (microerror.Mask err), s, ctx⟩
  | Except.ok customObject =>
  match r.encrypter.EnsureCreatedEncryptionKey customObject s with
  | (some err, s1) => ⟨Outcome.error (microerror.Mask err), s1, ctx⟩
  | (none, s1) =>
  match r.encrypter.EncryptionKey customObject s1 with
  | (Except.error err, s2) => ⟨Outcome.error (microerror.Mask err), s2, ctx⟩
  | (Except.ok encryptionKey, s2) =>
  match controllercontext.FromContext ctx with
  | Except.error err => ⟨Outcome.error (microerror.Mask err), s2, ctx⟩
  | Except.ok cc =>
    ⟨Outcome.ok, s2,
      some { cc with Status := { cc.Status with ClusterEncryptionKey := encryptionKey } }⟩

end encryptionkey

/-! ## Machines (`service/create/service.go`) -/

namespace create

/-- The constant `EC2PendingState`. -/
def EC2PendingState : Int := 0

/-- The constant `EC2RunningState`. -/
def EC2RunningState : Int := 16

/-- The constant `EC2ShuttingDownState`. -/
def EC2ShuttingDownState : Int := 32

/-- The constant `EC2TerminatedState`. -/
def EC2TerminatedState : Int := 48

/-- The constant `EC2StoppingState`. -/
def EC2StoppingState : Int := 64

/-- The constant `EC2StoppedState`. -/
def EC2StoppedState : Int := 80

/-- The constant `tagKeyName`. -/
def tagKeyName : String := "Name"

/-- The constant `tagKeyCluster`. -/
def tagKeyCluster : String := "Cluster"

/-- An `ec2.Instance`: `StateCode` is what `*i.State.Code` reads, `none` when
one of the two pointers is nil. -/
structure Instance where
  InstanceId : Option String
  StateCode : Option Int
deriving DecidableEq, Repr

/-- An `ec2.Reservation`. -/
structure Reservation where
  Instances : List Instance
deriving DecidableEq, Repr

/-- The output `ec2.DescribeInstancesOutput`; the slice `Reservations` may be nil. -/
structure DescribeInstancesOutput where
  Reservations : Option (List Reservation)
deriving DecidableEq, Repr

/-- An `ec2.Filter`. -/
structure Filter where
  Name : String
  Values : List String
deriving DecidableEq, Repr

/-- The input `ec2.RunInstancesInput`, by the fields `runMachine` sets. -/
structure RunInstancesInput where
  ImageId : String
  InstanceType : String
  MinCount : Int
  MaxCount : Int
deriving DecidableEq, Repr

/-- The input `ec2.CreateTagsInput`. -/
structure CreateTagsInput where
  Resources : List (Option String)
  Tags : List (String × String)
deriving DecidableEq, Repr

/-- The EC2 client `awsutil.NewClient` hands out, over provider states `σ`. -/
structure EC2Client (σ : Type) where
  DescribeInstances : List Filter → σ → Except Error DescribeInstancesOutput × σ
  RunInstances : RunInstancesInput → σ → Except Error Reservation × σ
  CreateTags : CreateTagsInput → σ → Option Error × σ

/-- A call `runMachine` issues to the EC2 client. -/
inductive EC2Call where
  | DescribeInstances (filters : List Filter)
  | RunInstances (input : RunInstancesInput)
  | CreateTags (input : CreateTagsInput)
deriving DecidableEq, Repr

/-- Whether a call is a `RunInstances` call. -/
def EC2Call.isRunInstances : EC2Call → Bool
  | EC2Call.RunInstances _ => true
  | _ => false

/-- Whether a call is a `CreateTags` call. -/
def EC2Call.isCreateTags : EC2Call → Bool
  | EC2Call.CreateTags _ => true
  | _ => false

/-- The result of `runMachine`: how it ended, the provider state it left, and
the EC2 calls it issued, in order. -/
structure MachineRun (σ : Type) where
  outcome : Outcome
  state : σ
  calls : List EC2Call

/-- The inner loop of `allExistingInstancesMatch` over the instances of one
reservation: `some false` at the first instance in another state, `none` when
a nil state is dereferenced first. -/
def instancesMatch : List Instance → Int → Option Bool
  | [], _ => some true
  | i :: rest, state =>
    match i.StateCode with
    | none => none
    | some code => if code ≠ state then some false else instancesMatch rest state

/-- The outer loop of `allExistingInstancesMatch` over the reservations. -/
def reservationsMatch : List Reservation → Int → Option Bool
  | [], _ => some true
  | r :: rest, state =>
    match instancesMatch r.Instances state with
    | some true => reservationsMatch rest state
    | other => other

/-- The function `allExistingInstancesMatch` of `service/create/service.go`;
`none` is the panic of a nil pointer dereference. -/
def allExistingInstancesMatch (instances : DescribeInstancesOutput) (state : Int) : Option Bool :=
  match instances.Reservations with
  | none => some true
  | some reservations => reservationsMatch reservations state

/-- The node `awsinfo.Node`, by the fields `runMachine` reads. -/
structure Node where
  ImageID : String
  InstanceType : String

/-- The method `Service.runMachine` of `service/create/service.go`, with the
EC2 client that `awsutil.NewClient` returns for the region of the spec. -/
def runMachine {σ : Type} (ec2Client : EC2Client σ) (awsNode : Node) (clusterName name : String)
    (s : σ) : MachineRun σ :=
  let filters : List Filter :=
    [{ Name := "tag:" ++ tagKeyName, Values := [name] },
     { Name := "tag:" ++ tagKeyCluster, Values := [clusterName] }]
  match ec2Client.DescribeInstances filters s with
  | (Except.error err, s1) =>
    ⟨Outcome.error (microerror.Mask err), s1, [EC2Call.DescribeInstances filters]⟩
  | (Except.ok instances, s1) =>
  match allExistingInstancesMatch instances EC2TerminatedState with
  | none => ⟨Outcome.panic, s1, [EC2Call.DescribeInstances filters]⟩
  | some false => ⟨Outcome.ok, s1, [EC2Call.DescribeInstances filters]⟩
  | some true =>
  let run : RunInstancesInput :=
    { ImageId := awsNode.ImageID, InstanceType := awsNode.InstanceType, MinCount := 1,
      MaxCount := 1 }
  match ec2Client.RunInstances run s1 with
  | (Except.error err, s2) =>
    ⟨Outcome.error (microerror.Mask err), s2,
      [EC2Call.DescribeInstances filters, EC2Call.RunInstances run]⟩
  | (Except.ok reservation, s2) =>
  match reservation.Instances with
  | [] => ⟨Outcome.panic, s2, [EC2Call.DescribeInstances filters, EC2Call.RunInstances run]⟩
  | first :: _ =>
  let tags : CreateTagsInput :=
    { Resources := [first.InstanceId]
      Tags := [(tagKeyName, name), (tagKeyCluster, clusterName)] }
  match ec2Client.CreateTags tags s2 with
  | (some err, s3) =>
    ⟨Outcome.error (microerror.Mask err), s3,
      [EC2Call.DescribeInstances filters, EC2Call.RunInstances run, EC2Call.CreateTags tags]⟩
  | (none, s3) =>
    ⟨Outcome.ok, s3,
      [EC2Call.DescribeInstances filters, EC2Call.RunInstances run, EC2Call.CreateTags tags]⟩

end create

namespace sample

/-- The status tree of a pass in which no stage has written a field yet: every
field holds the zero value of its type. -/
def freshStatus : controllercontext.Status where
  ControlPlaneVPCCIDR := ""
  TenantClusterAWSAccountID := ""
  TenantClusterVPCID := ""
  TenantClusterTCCPASGDesiredCapacity := 0
  ClusterEncryptionKey := ""

/-- A controller context with the fresh status tree. -/
def freshCC : controllercontext.Context Store where
  ControlPlane := Store.client
  TenantCluster := Store.client
  Status := freshStatus

/-- An encrypter over the list of keys it has yet to hand out: creating the
key always succeeds, reading the key hands out the next one. -/
def encrypter : encryptionkey.Encrypter (List String) where
  EnsureCreatedEncryptionKey _ s := (none, s)
  EncryptionKey _ s :=
    match s with
    | k :: rest => (Except.ok k, rest)
    | [] => (Except.error (Error.other "NotFoundException"), [])

/-- An encryption key resource with the sample encrypter. -/
def encryptionkeyResource : encryptionkey.Resource (List String) where
  encrypter := encrypter

/-- A configuration of the cluster resource as in the tags test. -/
def tccpConfig : tccp.Config Unit where
  APIWhitelist := ()
  EncrypterRoleManager := none
  G8sClient := some { name := "fake" }
  Logger := some { name := "microloggertest" }
  AdvancedMonitoringEC2 := false
  EncrypterBackend := "kms"
  GuestPrivateSubnetMaskBits := 0
  GuestPublicSubnetMaskBits := 0
  InstallationName := "test-install"
  PublicRouteTables := ""
  Route53Enabled := false

/-- An EC2 client over the output its `DescribeInstances` returns: running an
instance and tagging it succeed. -/
def ec2Client : create.EC2Client create.DescribeInstancesOutput where
  DescribeInstances _ s := (Except.ok s, s)
  RunInstances _ s :=
    (Except.ok { Instances := [{ InstanceId := some "i-0001", StateCode := some 0 }] }, s)
  CreateTags _ s := (none, s)

/-- A node to run. -/
def node : create.Node where
  ImageID := "ami-0123"
  InstanceType := "m3.large"

end sample

/-- The property of a stack client that a wait reports the truth: after a
successful `CreateStack` and a successful wait for a name, `DescribeStacks` of
the name waited for returns that one stack in a status other than
`CREATE_FAILED`. For the created name this is `CreatedIsDescribed`. -/
def WaitedIsDescribed {σ : Type} (c : cloudformation.Client σ) : Prop :=
  ∀ (i : cloudformation.CreateStackInput) (name : String) (s s2 s3 : σ),
    c.CreateStack i s = (none, s2) →
    c.WaitUntilStackCreateComplete name s2 = (none, s3) →
    ∃ status s4,
      c.DescribeStacks name s3 = (Except.ok { Stacks := [{ StackStatus := some status }] }, s4) ∧
      status ≠ cloudformation.StackStatusCreateFailed

/-- A CloudFormation client over `Store` like `Store.client`, except that a
wait succeeds for a stack recorded as complete only and fails otherwise, as the
waiter of the provider does for a stack that does not exist. -/
def Store.waitingClient : cloudformation.Client Store where
  DescribeStacks name s :=
    match s.lookup name with
    | some status => (Except.ok { Stacks := [{ StackStatus := some status }] }, s)
    | none => (Except.error Error.notExists, s)
  CreateStack i s :=
    match s.lookup i.StackName with
    | some _ => (some (Error.other "AlreadyExistsException"), s)
    | none => (none, (i.StackName, "CREATE_COMPLETE") :: s)
  WaitUntilStackCreateComplete name s :=
    if s.lookup name = some "CREATE_COMPLETE" then (none, s)
    else (some (Error.other "ResourceNotReady"), s)

namespace sample

/-- A controller context whose two clients are `Store.waitingClient`. -/
def waitingCC : controllercontext.Context Store where
  ControlPlane := Store.waitingClient
  TenantCluster := Store.waitingClient
  Status := status

end sample

/-! ## Properties -/

namespace tcdp

/-- C1: `minDesiredWorkers` is `max` when the observed desired capacity exceeds
`max`, the observed desired capacity when it lies in `(min, max]`, and `min`
otherwise; `(3,10,5)` gives 5, `(3,7,10)` gives 7 and `(3,10,2)` gives 3. -/
theorem minDesiredWorkers_cases (mn mx d : Int) :
    (d > mx → minDesiredWorkers mn mx d = mx) ∧
    (mn < d ∧ d ≤ mx → minDesiredWorkers mn mx d = d) ∧
    (¬ d > mx ∧ ¬ (mn < d ∧ d ≤ mx) → minDesiredWorkers mn mx d = mn) ∧
    minDesiredWorkers 3 10 5 = 5 ∧ minDesiredWorkers 3 7 10 = 7 ∧
    minDesiredWorkers 3 10 2 = 3 := by
  refine ⟨?_, ?_, ?_, by decide, by decide, by decide⟩
  · intro h
    simp [minDesiredWorkers, h]
  · rintro ⟨h1, h2⟩
    have h3 : ¬ d > mx := not_lt.mpr h2
    simp [minDesiredWorkers, h1, h3]
  · rintro ⟨h1, h2⟩
    have h3 : ¬ d > mn := fun h => h2 ⟨h, not_lt.mp h1⟩
    simp [minDesiredWorkers, h1, h3]

/-- C2 fails as stated: with `min = 10`, `max = 3` and an observed desired
capacity of 5 the result is 3, which is below `min`. -/
theorem minDesiredWorkers_below_min :
    ¬ (10 ≤ minDesiredWorkers 10 3 5 ∧ minDesiredWorkers 10 3 5 ≤ 3) := by
  decide

/-- C2 (amended): when `min ≤ max`, the result of `minDesiredWorkers` lies in
the closed interval `[min, max]`. -/
theorem minDesiredWorkers_mem_Icc (mn mx d : Int) (h : mn ≤ mx) :
    mn ≤ minDesiredWorkers mn mx d ∧ minDesiredWorkers mn mx d ≤ mx := by
  unfold minDesiredWorkers
  split_ifs with h1 h2
  · exact ⟨h, le_refl _⟩
  · exact ⟨le_of_lt h2, not_lt.mp h1⟩
  · exact ⟨le_refl _, h⟩

/-- Witness for C2 (amended) at `min = 3`, `max = 7`, observed 10. -/
theorem minDesiredWorkers_mem_Icc_witness :
    (3 : Int) ≤ 7 ∧ 3 ≤ minDesiredWorkers 3 7 10 ∧ minDesiredWorkers 3 7 10 ≤ 7 :=
  ⟨by decide, minDesiredWorkers_mem_Icc 3 7 10 (by decide)⟩

end tcdp

/-! ### Finding the stack -/

/-- C5: when the query returns exactly one stack in status `CREATE_FAILED`,
`EnsureCreated` of both resources fails with the execution failed error and
issues nothing but the query: no `CreateStack` call and no wait call. -/
theorem EnsureCreated_create_failed {σ : Type} (ctx : Option (controllercontext.Context σ))
    (obj : Obj) (cr : AWSConfig) (cc : controllercontext.Context σ) (s : σ)
    (hobj : key.ToCustomObject obj = Except.ok cr)
    (hctx : controllercontext.FromContext ctx = Except.ok cc) :
    (∀ (deps : cpi.Deps) (r : cpi.Resource) (s1 : σ),
      cc.ControlPlane.DescribeStacks (key.MainHostPreStackName cr) s =
        (Except.ok { Stacks := [{ StackStatus := some cloudformation.StackStatusCreateFailed }] }, s1) →
      (r.EnsureCreated deps ctx obj s).outcome = Outcome.error Error.executionFailed ∧
      (r.EnsureCreated deps ctx obj s).calls =
        [Call.DescribeStacks Account.ControlPlane (key.MainHostPreStackName cr)] ∧
      (∀ c ∈ (r.EnsureCreated deps ctx obj s).calls, c.isCreateStack = false ∧ c.isWait = false)) ∧
    (∀ (deps : tcdp.Deps) (r : tcdp.Resource) (s1 : σ),
      cc.TenantCluster.DescribeStacks (key.MainHostPreStackName cr) s =
        (Except.ok { Stacks := [{ StackStatus := some cloudformation.StackStatusCreateFailed }] }, s1) →
      (r.EnsureCreated deps ctx obj s).outcome = Outcome.error Error.executionFailed ∧
      (r.EnsureCreated deps ctx obj s).calls =
        [Call.DescribeStacks Account.TenantCluster (key.MainHostPreStackName cr)] ∧
      (∀ c ∈ (r.EnsureCreated deps ctx obj s).calls, c.isCreateStack = false ∧ c.isWait = false)) := by
  constructor
  · intro deps r s1 h
    simp [cpi.Resource.EnsureCreated, hobj, hctx, h, Call.isCreateStack, Call.isWait]
  · intro deps r s1 h
    simp [tcdp.Resource.EnsureCreated, hobj, hctx, h, Call.isCreateStack, Call.isWait]

/-- Witness for C5 on the sample cluster whose stack failed to create. -/
theorem EnsureCreated_create_failed_witness :
    (sample.cpiResource.EnsureCreated sample.cpiDeps (some sample.cc) (Obj.awsConfig sample.cr)
        sample.failedStore).outcome = Outcome.error Error.executionFailed ∧
    (sample.tcdpResource.EnsureCreated sample.tcdpDeps (some sample.cc) (Obj.awsConfig sample.cr)
        sample.failedStore).outcome = Outcome.error Error.executionFailed :=
  have h := EnsureCreated_create_failed (some sample.cc) (Obj.awsConfig sample.cr) sample.cr
    sample.cc sample.failedStore rfl rfl
  ⟨(h.1 sample.cpiDeps sample.cpiResource sample.failedStore rfl).1,
   (h.2 sample.tcdpDeps sample.tcdpResource sample.failedStore rfl).1⟩

/-- C6: when the query succeeds with exactly one stack whose status is not
`CREATE_FAILED` (in particular any status that is not a failed state),
`EnsureCreated` of both resources returns nil having issued nothing but the
query: no template is rendered, no `CreateStack` call and no wait call is
made, and the provider is left as the query left it. -/
theorem EnsureCreated_existing_noop {σ : Type} (ctx : Option (controllercontext.Context σ))
    (obj : Obj) (cr : AWSConfig) (cc : controllercontext.Context σ) (s : σ) (status : String)
    (hobj : key.ToCustomObject obj = Except.ok cr)
    (hctx : controllercontext.FromContext ctx = Except.ok cc)
    (hstatus : status ≠ cloudformation.StackStatusCreateFailed) :
    (∀ (deps : cpi.Deps) (r : cpi.Resource) (s1 : σ),
      cc.ControlPlane.DescribeStacks (key.MainHostPreStackName cr) s =
        (Except.ok { Stacks := [{ StackStatus := some status }] }, s1) →
      (r.EnsureCreated deps ctx obj s).outcome = Outcome.ok ∧
      (r.EnsureCreated deps ctx obj s).state = s1 ∧
      (r.EnsureCreated deps ctx obj s).calls =
        [Call.DescribeStacks Account.ControlPlane (key.MainHostPreStackName cr)] ∧
      (∀ c ∈ (r.EnsureCreated deps ctx obj s).calls,
        c ≠ Call.Render ∧ c.isCreateStack = false ∧ c.isWait = false)) ∧
    (∀ (deps : tcdp.Deps) (r : tcdp.Resource) (s1 : σ),
      cc.TenantCluster.DescribeStacks (key.MainHostPreStackName cr) s =
        (Except.ok { Stacks := [{ StackStatus := some status }] }, s1) →
      (r.EnsureCreated deps ctx obj s).outcome = Outcome.ok ∧
      (r.EnsureCreated deps ctx obj s).state = s1 ∧
      (r.EnsureCreated deps ctx obj s).calls =
        [Call.DescribeStacks Account.TenantCluster (key.MainHostPreStackName cr)] ∧
      (∀ c ∈ (r.EnsureCreated deps ctx obj s).calls,
        c ≠ Call.Render ∧ c.isCreateStack = false ∧ c.isWait = false)) := by
  constructor
  · intro deps r s1 h
    simp [cpi.Resource.EnsureCreated, hobj, hctx, h, hstatus, Call.isCreateStack, Call.isWait]
  · intro deps r s1 h
    simp [tcdp.Resource.EnsureCreated, hobj, hctx, h, hstatus, Call.isCreateStack, Call.isWait]

/-- Witness for C6 on the sample cluster whose stack is complete. -/
theorem EnsureCreated_existing_noop_witness :
    (sample.cpiResource.EnsureCreated sample.cpiDeps (some sample.cc) (Obj.awsConfig sample.cr)
        sample.completeStore).outcome = Outcome.ok ∧
    (sample.tcdpResource.EnsureCreated sample.tcdpDeps (some sample.cc) (Obj.awsConfig sample.cr)
        sample.completeStore).calls =
      [Call.DescribeStacks Account.TenantCluster "cluster-5xchu-host-setup"] :=
  have h := EnsureCreated_existing_noop (some sample.cc) (Obj.awsConfig sample.cr) sample.cr
    sample.cc sample.completeStore "CREATE_COMPLETE" rfl rfl (by decide)
  ⟨(h.1 sample.cpiDeps sample.cpiResource sample.completeStore rfl).1,
   (h.2 sample.tcdpDeps sample.tcdpResource sample.completeStore rfl).2.2.1⟩

/-- C10: when the query fails with an error that is not the provider's "does
not exist" error, `EnsureCreated` of both resources returns that error (never
nil) and issues nothing but the query: no `CreateStack` call and no wait call. -/
theorem EnsureCreated_query_error {σ : Type} (ctx : Option (controllercontext.Context σ))
    (obj : Obj) (cr : AWSConfig) (cc : controllercontext.Context σ) (s : σ) (err : Error)
    (hobj : key.ToCustomObject obj = Except.ok cr)
    (hctx : controllercontext.FromContext ctx = Except.ok cc)
    (herr : IsNotExists (some err) = false) :
    (∀ (deps : cpi.Deps) (r : cpi.Resource) (s1 : σ),
      cc.ControlPlane.DescribeStacks (key.MainHostPreStackName cr) s = (Except.error err, s1) →
      (r.EnsureCreated deps ctx obj s).outcome = Outcome.error err ∧
      (r.EnsureCreated deps ctx obj s).outcome ≠ Outcome.ok ∧
      (r.EnsureCreated deps ctx obj s).calls =
        [Call.DescribeStacks Account.ControlPlane (key.MainHostPreStackName cr)] ∧
      (∀ c ∈ (r.EnsureCreated deps ctx obj s).calls, c.isCreateStack = false ∧ c.isWait = false)) ∧
    (∀ (deps : tcdp.Deps) (r : tcdp.Resource) (s1 : σ),
      cc.TenantCluster.DescribeStacks (key.MainHostPreStackName cr) s = (Except.error err, s1) →
      (r.EnsureCreated deps ctx obj s).outcome = Outcome.error err ∧
      (r.EnsureCreated deps ctx obj s).outcome ≠ Outcome.ok ∧
      (r.EnsureCreated deps ctx obj s).calls =
        [Call.DescribeStacks Account.TenantCluster (key.MainHostPreStackName cr)] ∧
      (∀ c ∈ (r.EnsureCreated deps ctx obj s).calls, c.isCreateStack = false ∧ c.isWait = false)) := by
  constructor
  · intro deps r s1 h
    simp [cpi.Resource.EnsureCreated, hobj, hctx, h, herr, microerror.Mask,
      Call.isCreateStack, Call.isWait]
  · intro deps r s1 h
    simp [tcdp.Resource.EnsureCreated, hobj, hctx, h, herr, microerror.Mask,
      Call.isCreateStack, Call.isWait]

/-- Witness for C10 on the sample cluster with a throttled provider. -/
theorem EnsureCreated_query_error_witness :
    (sample.cpiResource.EnsureCreated sample.cpiDeps (some sample.throttledCC)
        (Obj.awsConfig sample.cr) []).outcome = Outcome.error (Error.other "Throttling") ∧
    (sample.tcdpResource.EnsureCreated sample.tcdpDeps (some sample.throttledCC)
        (Obj.awsConfig sample.cr) []).outcome = Outcome.error (Error.other "Throttling") :=
  have h := EnsureCreated_query_error (some sample.throttledCC) (Obj.awsConfig sample.cr)
    sample.cr sample.throttledCC [] (Error.other "Throttling") rfl rfl rfl
  ⟨(h.1 sample.cpiDeps sample.cpiResource [] rfl).1,
   (h.2 sample.tcdpDeps sample.tcdpResource [] rfl).1⟩

/-! ### Creating the stack -/

/-- C9 fails as stated: on an absent stack, with a renderer that fails, the
control plane initializer issues the query and the rendering only, so there is
no `CreateStack` call at all. -/
theorem cpi_EnsureCreated_render_fails_no_create :
    (sample.cpiResource.EnsureCreated sample.cpiDepsRenderFails (some sample.cc)
        (Obj.awsConfig sample.cr) []).calls =
      [Call.DescribeStacks Account.ControlPlane "cluster-5xchu-host-setup", Call.Render] ∧
    ((sample.cpiResource.EnsureCreated sample.cpiDepsRenderFails (some sample.cc)
        (Obj.awsConfig sample.cr) []).calls.filter Call.isCreateStack).length = 0 ∧
    (sample.cpiResource.EnsureCreated sample.cpiDepsRenderFails (some sample.cc)
        (Obj.awsConfig sample.cr) []).outcome = Outcome.error (Error.other "render") := by
  decide

/-- C9 (amended): when the query reports that the stack does not exist, the
control plane initializer renders the template of the IAM roles parameters and
then: a failed rendering is returned with no `CreateStack` call; otherwise one
`CreateStack` call is issued with the deterministic name, the tags of
`getCloudFormationTags`, the rendered body and the single capability
`CAPABILITY_NAMED_IAM`, and its failure is returned with no wait call and no
second `CreateStack`; otherwise one wait call for that name is issued and its
failure is returned; nil is returned exactly when all three succeed. -/
theorem cpi_EnsureCreated_absent {σ : Type} (deps : cpi.Deps) (r : cpi.Resource)
    (ctx : Option (controllercontext.Context σ)) (obj : Obj) (cr : AWSConfig)
    (cc : controllercontext.Context σ) (s s1 : σ) (err : Error)
    (hobj : key.ToCustomObject obj = Except.ok cr)
    (hctx : controllercontext.FromContext ctx = Except.ok cc)
    (hdesc : cc.ControlPlane.DescribeStacks (key.MainHostPreStackName cr) s = (Except.error err, s1))
    (herr : IsNotExists (some err) = true) :
    let name := key.MainHostPreStackName cr
    let params : cpi.template.ParamsMain :=
      { IAMRoles :=
          { PeerAccessRoleName := cr.PeerAccessRoleName
            TenantAWSAccountID := cc.Status.TenantClusterAWSAccountID } }
    let input : String → cloudformation.CreateStackInput := fun body =>
      { Capabilities := ["CAPABILITY_NAMED_IAM"]
        EnableTerminationProtection := deps.EnableTerminationProtection
        StackName := name
        Tags := r.getCloudFormationTags cr
        TemplateBody := body }
    let run := r.EnsureCreated deps ctx obj s
    (∀ e, deps.Render params = Except.error e →
      run.outcome = Outcome.error e ∧ run.state = s1 ∧
      run.calls = [Call.DescribeStacks Account.ControlPlane name, Call.Render]) ∧
    (∀ body e s2, deps.Render params = Except.ok body →
      cc.ControlPlane.CreateStack (input body) s1 = (some e, s2) →
      run.outcome = Outcome.error e ∧ run.state = s2 ∧
      run.calls = [Call.DescribeStacks Account.ControlPlane name, Call.Render,
        Call.CreateStack Account.ControlPlane (input body)]) ∧
    (∀ body e s2 s3, deps.Render params = Except.ok body →
      cc.ControlPlane.CreateStack (input body) s1 = (none, s2) →
      cc.ControlPlane.WaitUntilStackCreateComplete name s2 = (some e, s3) →
      run.outcome = Outcome.error e ∧ run.state = s3 ∧
      run.calls = [Call.DescribeStacks Account.ControlPlane name, Call.Render,
        Call.CreateStack Account.ControlPlane (input body),
        Call.WaitUntilStackCreateComplete Account.ControlPlane name]) ∧
    (∀ body s2 s3, deps.Render params = Except.ok body →
      cc.ControlPlane.CreateStack (input body) s1 = (none, s2) →
      cc.ControlPlane.WaitUntilStackCreateComplete name s2 = (none, s3) →
      run.outcome = Outcome.ok ∧ run.state = s3 ∧
      run.calls = [Call.DescribeStacks Account.ControlPlane name, Call.Render,
        Call.CreateStack Account.ControlPlane (input body),
        Call.WaitUntilStackCreateComplete Account.ControlPlane name]) ∧
    (run.outcome = Outcome.ok ↔
      ∃ body s2 s3, deps.Render params = Except.ok body ∧
        cc.ControlPlane.CreateStack (input body) s1 = (none, s2) ∧
        cc.ControlPlane.WaitUntilStackCreateComplete name s2 = (none, s3)) ∧
    (run.calls.filter Call.isCreateStack).length ≤ 1 ∧
    (run.calls.filter Call.isWait).length ≤ 1 := by
  intro name params input run
  have hrun : run = cpi.Resource.createStack deps r ctx cc cr s1
      [Call.DescribeStacks Account.ControlPlane name] := by
    simp [run, name, cpi.Resource.EnsureCreated, hobj, hctx, hdesc, herr]
  have hparams : r.newIAMRolesParams ctx cr = Except.ok params.IAMRoles := by
    simp [cpi.Resource.newIAMRolesParams, hctx, params]
  rcases hR : deps.Render params with e | body
  · have h : run = ⟨Outcome.error e, s1,
        [Call.DescribeStacks Account.ControlPlane name, Call.Render]⟩ := by
      rw [hrun]
      simp [cpi.Resource.createStack, hparams, params, microerror.Mask] at hR ⊢
      simp [hR]
    rw [h]
    refine ⟨fun e1 hR1 => ?_, fun b e1 t2 hR1 hC1 => ?_, fun b e1 t2 t3 hR1 hC1 hW1 => ?_,
      fun b t2 t3 hR1 hC1 hW1 => ?_, ⟨fun ho => ?_, fun ⟨b, t2, t3, hR1, hC1, hW1⟩ => ?_⟩,
      ?_, ?_⟩ <;> simp_all [Call.isCreateStack, Call.isWait]
  · rcases hC : cc.ControlPlane.CreateStack (input body) s1 with ⟨oc, s2⟩
    cases oc with
    | some e =>
      have h : run = ⟨Outcome.error e, s2,
          [Call.DescribeStacks Account.ControlPlane name, Call.Render,
            Call.CreateStack Account.ControlPlane (input body)]⟩ := by
        rw [hrun]
        simp [cpi.Resource.createStack, hparams, params, microerror.Mask, input, name,
          capabilityNamesIAM] at hR hC ⊢
        simp [hR, hC]
      rw [h]
      refine ⟨fun e1 hR1 => ?_, fun b e1 t2 hR1 hC1 => ?_, fun b e1 t2 t3 hR1 hC1 hW1 => ?_,
        fun b t2 t3 hR1 hC1 hW1 => ?_, ⟨fun ho => ?_, fun ⟨b, t2, t3, hR1, hC1, hW1⟩ => ?_⟩,
        ?_, ?_⟩ <;> simp_all [Call.isCreateStack, Call.isWait]
    | none =>
      rcases hW : cc.ControlPlane.WaitUntilStackCreateComplete name s2 with ⟨ow, s3⟩
      cases ow with
      | some e =>
        have h : run = ⟨Outcome.error e, s3,
            [Call.DescribeStacks Account.ControlPlane name, Call.Render,
              Call.CreateStack Account.ControlPlane (input body),
              Call.WaitUntilStackCreateComplete Account.ControlPlane name]⟩ := by
          rw [hrun]
          simp [cpi.Resource.createStack, hparams, params, microerror.Mask, input, name,
            capabilityNamesIAM] at hR hC hW ⊢
          simp [hR, hC, hW]
        rw [h]
        refine ⟨fun e1 hR1 => ?_, fun b e1 t2 hR1 hC1 => ?_, fun b e1 t2 t3 hR1 hC1 hW1 => ?_,
          fun b t2 t3 hR1 hC1 hW1 => ?_, ⟨fun ho => ?_, fun ⟨b, t2, t3, hR1, hC1, hW1⟩ => ?_⟩,
          ?_, ?_⟩ <;> simp_all [Call.isCreateStack, Call.isWait]
      | none =>
        have h : run = ⟨Outcome.ok, s3,
            [Call.DescribeStacks Account.ControlPlane name, Call.Render,
              Call.CreateStack Account.ControlPlane (input body),
              Call.WaitUntilStackCreateComplete Account.ControlPlane name]⟩ := by
          rw [hrun]
          simp [cpi.Resource.createStack, hparams, params, microerror.Mask, input, name,
            capabilityNamesIAM] at hR hC hW ⊢
          simp [hR, hC, hW]
        rw [h]
        refine ⟨fun e1 hR1 => ?_, fun b e1 t2 hR1 hC1 => ?_, fun b e1 t2 t3 hR1 hC1 hW1 => ?_,
          fun b t2 t3 hR1 hC1 hW1 => ?_, ⟨fun ho => ?_, fun ⟨b, t2, t3, hR1, hC1, hW1⟩ => ?_⟩,
          ?_, ?_⟩ <;> simp_all [Call.isCreateStack, Call.isWait]

/-- Witness for C9 (amended): on the sample cluster with no stack, the control
plane initializer queries, renders, creates and waits, and returns nil. -/
theorem cpi_EnsureCreated_absent_witness :
    (sample.cpiResource.EnsureCreated sample.cpiDeps (some sample.cc)
        (Obj.awsConfig sample.cr) []).outcome = Outcome.ok ∧
    (sample.cpiResource.EnsureCreated sample.cpiDeps (some sample.cc)
        (Obj.awsConfig sample.cr) []).state = [("cluster-5xchu-host-setup", "CREATE_COMPLETE")] ∧
    (sample.cpiResource.EnsureCreated sample.cpiDeps (some sample.cc)
        (Obj.awsConfig sample.cr) []).calls =
      [Call.DescribeStacks Account.ControlPlane "cluster-5xchu-host-setup", Call.Render,
        Call.CreateStack Account.ControlPlane
          { Capabilities := ["CAPABILITY_NAMED_IAM"]
            EnableTerminationProtection := true
            StackName := "cluster-5xchu-host-setup"
            Tags := sample.cpiResource.getCloudFormationTags sample.cr
            TemplateBody := "template" },
        Call.WaitUntilStackCreateComplete Account.ControlPlane "cluster-5xchu-host-setup"] :=
  (cpi_EnsureCreated_absent sample.cpiDeps sample.cpiResource (some sample.cc)
    (Obj.awsConfig sample.cr) sample.cr sample.cc [] [] Error.notExists rfl rfl rfl rfl).2.2.2.1
    "template" [("cluster-5xchu-host-setup", "CREATE_COMPLETE")]
    [("cluster-5xchu-host-setup", "CREATE_COMPLETE")] rfl rfl rfl
/-! ### Idempotence and stack names -/

/-- The provider model `Store.client` has the property under which idempotence
is claimed. -/
theorem Store.client_createdIsDescribed : CreatedIsDescribed Store.client := by
  intro i s s2 s3 hC hW
  simp only [Store.client] at hC hW ⊢
  cases hl : List.lookup i.StackName s with
  | some st => simp [hl] at hC
  | none =>
    simp only [hl, Prod.mk.injEq, true_and] at hC
    simp only [Prod.mk.injEq, true_and] at hW
    subst hC
    subst hW
    refine ⟨"CREATE_COMPLETE", (i.StackName, "CREATE_COMPLETE") :: s, ?_, by decide⟩
    simp [List.lookup]

/-- Idempotence of the control plane initializer: over a stack client with the
property `CreatedIsDescribed`, if a first `EnsureCreated` starts from an absent
stack and returns nil, a second one on the state it left returns nil as well
and issues no `CreateStack` call; the two together issue exactly one. -/
theorem cpi_EnsureCreated_idempotent {σ : Type} (deps : cpi.Deps) (r : cpi.Resource)
    (ctx : Option (controllercontext.Context σ)) (obj : Obj) (cr : AWSConfig)
    (cc : controllercontext.Context σ) (s s1 : σ) (err : Error)
    (hobj : key.ToCustomObject obj = Except.ok cr)
    (hctx : controllercontext.FromContext ctx = Except.ok cc)
    (hmodel : CreatedIsDescribed cc.ControlPlane)
    (hdesc : cc.ControlPlane.DescribeStacks (key.MainHostPreStackName cr) s = (Except.error err, s1))
    (herr : IsNotExists (some err) = true)
    (hfirst : (r.EnsureCreated deps ctx obj s).outcome = Outcome.ok) :
    (r.EnsureCreated deps ctx obj (r.EnsureCreated deps ctx obj s).state).outcome = Outcome.ok ∧
    (r.EnsureCreated deps ctx obj (r.EnsureCreated deps ctx obj s).state).calls.filter
      Call.isCreateStack = [] ∧
    (((r.EnsureCreated deps ctx obj s).calls ++
      (r.EnsureCreated deps ctx obj (r.EnsureCreated deps ctx obj s).state).calls).filter
      Call.isCreateStack).length = 1 := by
  have hrun : r.EnsureCreated deps ctx obj s = cpi.Resource.createStack deps r ctx cc cr s1
      [Call.DescribeStacks Account.ControlPlane (key.MainHostPreStackName cr)] := by
    simp [cpi.Resource.EnsureCreated, hobj, hctx, hdesc, herr]
  have hparams : r.newIAMRolesParams ctx cr =
      Except.ok ⟨cr.PeerAccessRoleName, cc.Status.TenantClusterAWSAccountID⟩ := by
    simp [cpi.Resource.newIAMRolesParams, hctx]
  rw [hrun] at hfirst ⊢
  simp only [cpi.Resource.createStack, hparams] at hfirst ⊢
  rcases hR : deps.Render ⟨⟨cr.PeerAccessRoleName, cc.Status.TenantClusterAWSAccountID⟩⟩
    with e | body
  · simp [hR] at hfirst
  · simp only [hR] at hfirst ⊢
    rcases hC : cc.ControlPlane.CreateStack
        ⟨[capabilityNamesIAM], deps.EnableTerminationProtection, key.MainHostPreStackName cr,
          r.getCloudFormationTags cr, body⟩ s1 with ⟨oc, s2⟩
    cases oc with
    | some e => simp [hC] at hfirst
    | none =>
      simp only [hC] at hfirst ⊢
      rcases hW : cc.ControlPlane.WaitUntilStackCreateComplete (key.MainHostPreStackName cr) s2
        with ⟨ow, s3⟩
      cases ow with
      | some e => simp [hW] at hfirst
      | none =>
        obtain ⟨status, s4, hD, hne⟩ := hmodel _ s1 s2 s3 hC hW
        simp only [] at hD
        simp [cpi.Resource.EnsureCreated, hobj, hctx, hD, hne, Call.isCreateStack]

/-- Witness for the idempotence of the control plane initializer on the sample
cluster, starting with no stack. -/
theorem cpi_EnsureCreated_idempotent_witness :
    (sample.cpiResource.EnsureCreated sample.cpiDeps (some sample.cc) (Obj.awsConfig sample.cr)
      (sample.cpiResource.EnsureCreated sample.cpiDeps (some sample.cc) (Obj.awsConfig sample.cr)
        []).state).outcome = Outcome.ok :=
  (cpi_EnsureCreated_idempotent sample.cpiDeps sample.cpiResource (some sample.cc)
    (Obj.awsConfig sample.cr) sample.cr sample.cc [] [] Error.notExists rfl rfl
    Store.client_createdIsDescribed rfl rfl rfl).1

/-- C8 on the sample cluster with no stack: the tenant data plane queries and
waits for `cluster-5xchu-host-setup` but creates `cluster-5XCHU-tcdp`, a
different name; and the created name is built from the free identifier of
`stackName` alone, whatever the custom object. -/
theorem tcdp_EnsureCreated_stack_names :
    (sample.tcdpResource.EnsureCreated sample.tcdpDeps (some sample.cc)
        (Obj.awsConfig sample.cr) []).calls =
      [Call.DescribeStacks Account.TenantCluster "cluster-5xchu-host-setup", Call.Render,
        Call.CreateStack Account.TenantCluster
          { Capabilities := ["CAPABILITY_NAMED_IAM"]
            EnableTerminationProtection := true
            StackName := "cluster-5XCHU-tcdp"
            Tags := sample.tcdpResource.getCloudFormationTags sample.cr
            TemplateBody := "template" },
        Call.WaitUntilStackCreateComplete Account.TenantCluster "cluster-5xchu-host-setup"] ∧
    tcdp.stackName sample.tcdpDeps.a sample.cr ≠ key.MainHostPreStackName sample.cr ∧
    (∀ (a : String) (cr1 cr2 : AWSConfig), tcdp.stackName a cr1 = tcdp.stackName a cr2) := by
  refine ⟨by decide, by decide, fun a cr1 cr2 => rfl⟩

/-! ### The `float32` model -/

namespace Go

theorem log2floor_spec (fuel n : Nat) (hn : 1 ≤ n) (hf : n ≤ fuel) :
    2 ^ log2floor fuel n ≤ n ∧ n < 2 ^ (log2floor fuel n + 1) := by
  induction fuel generalizing n with
  | zero => omega
  | succ fuel ih =>
    unfold log2floor
    split_ifs with h2
    · have h := ih (n / 2) (by omega) (by omega)
      constructor
      · calc 2 ^ (log2floor fuel (n / 2) + 1) = 2 ^ log2floor fuel (n / 2) * 2 := pow_succ _ _
          _ ≤ n / 2 * 2 := Nat.mul_le_mul_right 2 h.1
          _ ≤ n := Nat.div_mul_le_self n 2
      · have h3 : n / 2 + 1 ≤ 2 ^ (log2floor fuel (n / 2) + 1) := h.2
        calc n < (n / 2 + 1) * 2 := by omega
          _ ≤ 2 ^ (log2floor fuel (n / 2) + 1) * 2 := Nat.mul_le_mul_right 2 h3
          _ = 2 ^ (log2floor fuel (n / 2) + 1 + 1) := (pow_succ _ _).symm
    · constructor
      · simpa using hn
      · simp; omega

theorem ilog2_spec (x : ℚ) (hx : x ≠ 0) :
    (2 : ℚ) ^ ilog2 x ≤ |x| ∧ |x| < (2 : ℚ) ^ (ilog2 x + 1) := by
  have hnum : 1 ≤ x.num.natAbs := by
    have : x.num ≠ 0 := Rat.num_ne_zero.mpr hx
    omega
  have hden : 1 ≤ x.den := x.den_pos
  obtain ⟨hn1, hn2⟩ := log2floor_spec x.num.natAbs x.num.natAbs hnum le_rfl
  obtain ⟨hd1, hd2⟩ := log2floor_spec x.den x.den hden le_rfl
  set a := log2floor x.num.natAbs x.num.natAbs with ha
  set b := log2floor x.den x.den with hb
  have habs : |x| = (x.num.natAbs : ℚ) / (x.den : ℚ) := by
    conv_lhs => rw [← Rat.num_div_den x]
    rw [abs_div, Nat.abs_cast, Nat.cast_natAbs, Int.cast_abs]
  have hdpos : (0 : ℚ) < x.den := by exact_mod_cast x.den_pos
  have hn1q : (2 : ℚ) ^ a ≤ x.num.natAbs := by exact_mod_cast hn1
  have hn2q : (x.num.natAbs : ℚ) < 2 ^ (a + 1) := by exact_mod_cast hn2
  have hd1q : (2 : ℚ) ^ b ≤ x.den := by exact_mod_cast hd1
  have hd2q : (x.den : ℚ) < 2 ^ (b + 1) := by exact_mod_cast hd2
  have h2 : (2 : ℚ) ≠ 0 := two_ne_zero
  have hpb : (0 : ℚ) < 2 ^ b := by positivity
  -- upper bound with c + 1, lower bound with c - 1
  have hup : |x| < (2 : ℚ) ^ ((a : ℤ) - b + 1) := by
    rw [habs, div_lt_iff₀ hdpos]
    have e : (2 : ℚ) ^ ((a : ℤ) - b + 1) = 2 ^ (a + 1) / 2 ^ b := by
      rw [show (a : ℤ) - b + 1 = ((a + 1 : ℕ) : ℤ) - (b : ℕ) by push_cast; ring,
        zpow_sub₀ h2, zpow_natCast, zpow_natCast]
    rw [e]
    calc (x.num.natAbs : ℚ) < 2 ^ (a + 1) := hn2q
      _ = 2 ^ (a + 1) / 2 ^ b * 2 ^ b := by field_simp
      _ ≤ 2 ^ (a + 1) / 2 ^ b * x.den := by
        apply mul_le_mul_of_nonneg_left hd1q
        positivity
  have hlow : (2 : ℚ) ^ ((a : ℤ) - b - 1) ≤ |x| := by
    rw [habs, le_div_iff₀ hdpos]
    have e : (2 : ℚ) ^ ((a : ℤ) - b - 1) = 2 ^ a / 2 ^ (b + 1) := by
      rw [show (a : ℤ) - b - 1 = ((a : ℕ) : ℤ) - ((b + 1 : ℕ) : ℤ) by push_cast; ring,
        zpow_sub₀ h2, zpow_natCast, zpow_natCast]
    rw [e]
    calc 2 ^ a / 2 ^ (b + 1) * (x.den : ℚ) ≤ 2 ^ a / 2 ^ (b + 1) * 2 ^ (b + 1) := by
          apply mul_le_mul_of_nonneg_left hd2q.le
          positivity
      _ = 2 ^ a := by field_simp
      _ ≤ x.num.natAbs := hn1q
  unfold ilog2
  simp only [← ha, ← hb]
  split_ifs with hc
  · exact ⟨hc, hup⟩
  · refine ⟨hlow, ?_⟩
    rw [sub_add_cancel]
    exact not_le.mp hc

theorem ilog2_unique (x : ℚ) (e : ℤ) (h1 : (2 : ℚ) ^ e ≤ |x|) (h2 : |x| < (2 : ℚ) ^ (e + 1)) :
    ilog2 x = e := by
  have hx : x ≠ 0 := by
    intro h
    rw [h, abs_zero] at h1
    exact absurd h1 (not_le.mpr (zpow_pos (by norm_num) e))
  obtain ⟨s1, s2⟩ := ilog2_spec x hx
  have two : (1 : ℚ) < 2 := by norm_num
  have a1 : ilog2 x < e + 1 := (zpow_lt_zpow_iff_right₀ two).mp (lt_of_le_of_lt s1 h2)
  have a2 : e < ilog2 x + 1 := (zpow_lt_zpow_iff_right₀ two).mp (lt_of_le_of_lt h1 s2)
  omega

end Go
namespace Go

theorem roundHalfEven_bounds (y : ℚ) :
    y - 1 / 2 ≤ (roundHalfEven y : ℚ) ∧ (roundHalfEven y : ℚ) ≤ y + 1 / 2 := by
  have h1 : (⌊y⌋ : ℚ) ≤ y := Int.floor_le y
  have h2 : y < (⌊y⌋ : ℚ) + 1 := Int.lt_floor_add_one y
  unfold roundHalfEven
  simp only
  split_ifs with ha hb hc
  · constructor <;> linarith
  · push_cast
    constructor <;> linarith
  · have hd : y - ⌊y⌋ = 1 / 2 := le_antisymm (not_lt.mp hb) (not_lt.mp ha)
    constructor <;> linarith
  · have hd : y - ⌊y⌋ = 1 / 2 := le_antisymm (not_lt.mp hb) (not_lt.mp ha)
    push_cast
    constructor <;> linarith

theorem roundHalfEven_intCast (n : ℤ) : roundHalfEven (n : ℚ) = n := by
  unfold roundHalfEven
  simp

theorem roundHalfEven_mono {y z : ℚ} (h : y ≤ z) : roundHalfEven y ≤ roundHalfEven z := by
  by_contra hlt
  have hlt : roundHalfEven z + 1 ≤ roundHalfEven y := by omega
  have hq : (roundHalfEven z : ℚ) + 1 ≤ (roundHalfEven y : ℚ) := by exact_mod_cast hlt
  have b1 := (roundHalfEven_bounds y).2
  have b2 := (roundHalfEven_bounds z).1
  have hyz : y = z := by linarith
  rw [hyz] at hlt
  omega

theorem roundHalfEven_le_of_le_intCast {y : ℚ} {n : ℤ} (h : y ≤ n) : roundHalfEven y ≤ n := by
  have := roundHalfEven_mono h
  rwa [roundHalfEven_intCast] at this

theorem intCast_le_roundHalfEven {y : ℚ} {n : ℤ} (h : (n : ℚ) ≤ y) : n ≤ roundHalfEven y := by
  have := roundHalfEven_mono h
  rwa [roundHalfEven_intCast] at this

theorem quantum_pos (x : ℚ) : 0 < quantum x := by
  unfold quantum
  exact zpow_pos (by norm_num) _

theorem float32_zero : float32 0 = 0 := by
  simp [float32]

theorem float32_eq (x : ℚ) (hx : x ≠ 0) :
    float32 x = roundHalfEven (x / quantum x) * quantum x := by
  simp [float32, hx]

theorem float32_nonneg {x : ℚ} (hx : 0 ≤ x) : 0 ≤ float32 x := by
  rcases eq_or_lt_of_le hx with h | h
  · rw [← h, float32_zero]
  · rw [float32_eq x (ne_of_gt h)]
    have hq := quantum_pos x
    have : (0 : ℤ) ≤ roundHalfEven (x / quantum x) :=
      intCast_le_roundHalfEven (by simpa using div_nonneg hx hq.le)
    have : (0 : ℚ) ≤ roundHalfEven (x / quantum x) := by exact_mod_cast this
    positivity

theorem float32_le_of_le_mul {x : ℚ} (hx : 0 < x) (n : ℤ) (h : x ≤ n * quantum x) :
    float32 x ≤ n * quantum x := by
  rw [float32_eq x (ne_of_gt hx)]
  have hq := quantum_pos x
  have h1 : x / quantum x ≤ n := by rwa [div_le_iff₀ hq]
  have h2 : (roundHalfEven (x / quantum x) : ℚ) ≤ n := by
    exact_mod_cast roundHalfEven_le_of_le_intCast h1
  exact mul_le_mul_of_nonneg_right h2 hq.le

theorem mul_le_float32_of_mul_le {x : ℚ} (hx : 0 < x) (n : ℤ) (h : n * quantum x ≤ x) :
    n * quantum x ≤ float32 x := by
  rw [float32_eq x (ne_of_gt hx)]
  have hq := quantum_pos x
  have h1 : (n : ℚ) ≤ x / quantum x := by rwa [le_div_iff₀ hq]
  have h2 : (n : ℚ) ≤ (roundHalfEven (x / quantum x) : ℚ) := by
    exact_mod_cast intCast_le_roundHalfEven h1
  exact mul_le_mul_of_nonneg_right h2 hq.le

theorem float32_of_eq_mul {x : ℚ} (hx : 0 < x) (n : ℤ) (h : x = n * quantum x) :
    float32 x = x :=
  le_antisymm (by
      have := float32_le_of_le_mul hx n h.le
      rwa [← h] at this)
    (by
      have := mul_le_float32_of_mul_le hx n h.ge
      rwa [← h] at this)

/-- The exponent that fixes the spacing around `x`. -/
theorem quantum_eq (x : ℚ) : quantum x = 2 ^ (max (ilog2 x) (-126) - 23) := rfl

theorem two_zpow_eq_mul_quantum (x : ℚ) (e : ℤ) (he : max (ilog2 x) (-126) - 23 ≤ e) :
    (2 : ℚ) ^ e = ((2 ^ (e - (max (ilog2 x) (-126) - 23)).toNat : ℤ) : ℚ) * quantum x := by
  rw [quantum_eq]
  push_cast
  rw [← zpow_natCast, Int.toNat_of_nonneg (by omega), ← zpow_add₀ (by norm_num : (2 : ℚ) ≠ 0)]
  congr 1
  ring

theorem float32_le_two_zpow {x : ℚ} (hx : 0 < x) (e : ℤ)
    (he : max (ilog2 x) (-126) - 23 ≤ e) (h : x ≤ 2 ^ e) : float32 x ≤ 2 ^ e := by
  rw [two_zpow_eq_mul_quantum x e he] at h ⊢
  exact float32_le_of_le_mul hx _ h

theorem two_zpow_le_float32 {x : ℚ} (hx : 0 < x) (e : ℤ)
    (he : max (ilog2 x) (-126) - 23 ≤ e) (h : (2 : ℚ) ^ e ≤ x) : 2 ^ e ≤ float32 x := by
  rw [two_zpow_eq_mul_quantum x e he] at h ⊢
  exact mul_le_float32_of_mul_le hx _ h

theorem float32_mono {x y : ℚ} (hx : 0 ≤ x) (hxy : x ≤ y) : float32 x ≤ float32 y := by
  rcases eq_or_lt_of_le hx with h0 | hpos
  · rw [← h0, float32_zero]
    exact float32_nonneg (hx.trans hxy)
  have hypos : 0 < y := lt_of_lt_of_le hpos hxy
  have two : (1 : ℚ) < 2 := by norm_num
  obtain ⟨sx1, sx2⟩ := ilog2_spec x (ne_of_gt hpos)
  obtain ⟨sy1, sy2⟩ := ilog2_spec y (ne_of_gt hypos)
  rw [abs_of_pos hpos] at sx1 sx2
  rw [abs_of_pos hypos] at sy1 sy2
  have hle : ilog2 x ≤ ilog2 y := by
    have : ilog2 x < ilog2 y + 1 :=
      (zpow_lt_zpow_iff_right₀ two).mp (lt_of_le_of_lt sx1 (lt_of_le_of_lt hxy sy2))
    omega
  by_cases hE : max (ilog2 x) (-126) = max (ilog2 y) (-126)
  · have hq : quantum x = quantum y := by rw [quantum_eq, quantum_eq, hE]
    rw [float32_eq x (ne_of_gt hpos), float32_eq y (ne_of_gt hypos), hq]
    have hqy := quantum_pos y
    have h1 : x / quantum y ≤ y / quantum y := div_le_div_of_nonneg_right hxy hqy.le
    have h2 : (roundHalfEven (x / quantum y) : ℚ) ≤ roundHalfEven (y / quantum y) := by
      exact_mod_cast roundHalfEven_mono h1
    exact mul_le_mul_of_nonneg_right h2 hqy.le
  · have hlt : max (ilog2 x) (-126) + 1 ≤ ilog2 y := by omega
    have hy126 : -126 ≤ ilog2 y := by omega
    have a1 : float32 x ≤ 2 ^ (max (ilog2 x) (-126) + 1) := by
      apply float32_le_two_zpow hpos _ (by omega)
      exact le_trans sx2.le (zpow_le_zpow_right₀ two.le (by omega))
    have a2 : (2 : ℚ) ^ (ilog2 y) ≤ float32 y :=
      two_zpow_le_float32 hypos _ (by omega) sy1
    exact a1.trans ((zpow_le_zpow_right₀ two.le hlt).trans a2)

end Go
namespace Go

theorem float32_half : float32 (1 / 2) = 1 / 2 := by decide!

theorem float32_largest_below_two_pow_63 :
    float32 9223371761976868863 = 9223371487098961920 := by decide!

theorem float32_largest_fixed : float32 9223371487098961920 = 9223371487098961920 := by decide!

theorem float32_largest_add_half :
    float32 (9223371487098961920 + 1 / 2) = 9223371487098961920 := by decide!

theorem intOfFloat_of_nonneg {u : ℚ} (h0 : 0 ≤ u) (h1 : u < 2 ^ 63) : intOfFloat u = ⌊u⌋ := by
  unfold intOfFloat
  simp only [h0, if_true]
  have a : (0 : ℤ) ≤ ⌊u⌋ := Int.floor_nonneg.mpr h0
  have b : ⌊u⌋ < 2 ^ 63 := by
    have : (⌊u⌋ : ℚ) < ((2 ^ 63 : ℤ) : ℚ) := by
      push_cast
      exact lt_of_le_of_lt (Int.floor_le u) h1
    exact_mod_cast this
  rw [if_pos ⟨by omega, b⟩]

end Go

namespace tcdp

theorem workerCountRatioRounded_eq_of_nonneg (workers : Int) (ratio : ℚ) (hw : 0 ≤ workers)
    (hb : workers < 2 ^ 63 - 2 ^ 38) (hr0 : 0 < ratio) (hr1 : ratio ≤ 1) :
    0 ≤ ⌊Go.float32 (Go.float32 (Go.float32 (workers : ℚ) * ratio) + 1 / 2)⌋ ∧
    workerCountRatioRounded workers ratio =
      (if ⌊Go.float32 (Go.float32 (Go.float32 (workers : ℚ) * ratio) + 1 / 2)⌋ = 0 then 1
        else ⌊Go.float32 (Go.float32 (Go.float32 (workers : ℚ) * ratio) + 1 / 2)⌋) := by
  have hwq : (0 : ℚ) ≤ workers := by exact_mod_cast hw
  have hbq : (workers : ℚ) ≤ 9223371761976868863 := by
    have : workers ≤ 9223371761976868863 := by omega
    exact_mod_cast this
  have h1 : Go.float32 (workers : ℚ) ≤ 9223371487098961920 := by
    have := Go.float32_mono hwq hbq
    rwa [Go.float32_largest_below_two_pow_63] at this
  have h1n : 0 ≤ Go.float32 (workers : ℚ) := Go.float32_nonneg hwq
  have h2n : 0 ≤ Go.float32 (workers : ℚ) * ratio := mul_nonneg h1n hr0.le
  have h2 : Go.float32 (workers : ℚ) * ratio ≤ 9223371487098961920 := by
    calc Go.float32 (workers : ℚ) * ratio ≤ Go.float32 (workers : ℚ) * 1 :=
          mul_le_mul_of_nonneg_left hr1 h1n
      _ ≤ 9223371487098961920 := by rwa [mul_one]
  have h3n : 0 ≤ Go.float32 (Go.float32 (workers : ℚ) * ratio) := Go.float32_nonneg h2n
  have h3 : Go.float32 (Go.float32 (workers : ℚ) * ratio) ≤ 9223371487098961920 := by
    have := Go.float32_mono h2n h2
    rwa [Go.float32_largest_fixed] at this
  have h4n : 0 ≤ Go.float32 (Go.float32 (Go.float32 (workers : ℚ) * ratio) + 1 / 2) :=
    Go.float32_nonneg (by linarith)
  have h4 : Go.float32 (Go.float32 (Go.float32 (workers : ℚ) * ratio) + 1 / 2) ≤
      9223371487098961920 := by
    have := Go.float32_mono (x := Go.float32 (Go.float32 (workers : ℚ) * ratio) + 1 / 2)
      (y := 9223371487098961920 + 1 / 2) (by linarith) (by linarith)
    rwa [Go.float32_largest_add_half] at this
  have h5 := Go.intOfFloat_of_nonneg h4n (lt_of_le_of_lt h4 (by norm_num))
  refine ⟨Int.floor_nonneg.mpr h4n, ?_⟩
  unfold workerCountRatioRounded
  simp only [h5]

end tcdp
namespace Go

theorem float32_le_add_half_quantum {z : ℚ} (hz : 0 < z) : float32 z ≤ z + quantum z / 2 := by
  rw [float32_eq z (ne_of_gt hz)]
  have hq := quantum_pos z
  have hb := (roundHalfEven_bounds (z / quantum z)).2
  calc (roundHalfEven (z / quantum z) : ℚ) * quantum z
      ≤ (z / quantum z + 1 / 2) * quantum z := mul_le_mul_of_nonneg_right hb hq.le
    _ = z + quantum z / 2 := by
      field_simp
      ring

theorem intCast_eq_mul_quantum (z : ℚ) (hE : max (ilog2 z) (-126) ≤ 23) (n : ℤ) :
    (n : ℚ) = ((n * 2 ^ (23 - max (ilog2 z) (-126)).toNat : ℤ) : ℚ) * quantum z := by
  rw [quantum_eq]
  push_cast
  rw [mul_assoc, ← zpow_natCast, Int.toNat_of_nonneg (by omega),
    ← zpow_add₀ (by norm_num : (2 : ℚ) ≠ 0)]
  have e : 23 - max (ilog2 z) (-126) + (max (ilog2 z) (-126) - 23) = 0 := by ring
  rw [e, zpow_zero, mul_one]

theorem intCast_le_float32 {z : ℚ} (hz : 0 < z) (hE : max (ilog2 z) (-126) ≤ 23) (n : ℤ)
    (h : (n : ℚ) ≤ z) : (n : ℚ) ≤ float32 z := by
  rw [intCast_eq_mul_quantum z hE n] at h ⊢
  exact mul_le_float32_of_mul_le hz _ h

theorem float32_le_intCast {z : ℚ} (hz : 0 < z) (hE : max (ilog2 z) (-126) ≤ 23) (n : ℤ)
    (h : z ≤ (n : ℚ)) : float32 z ≤ (n : ℚ) := by
  rw [intCast_eq_mul_quantum z hE n] at h ⊢
  exact float32_le_of_le_mul hz _ h

theorem float32_natCast (n : ℕ) (hn : n < 2 ^ 24) : float32 (n : ℚ) = n := by
  rcases Nat.eq_zero_or_pos n with h0 | hpos
  · subst h0
    simpa using float32_zero
  have hq : (0 : ℚ) < n := by exact_mod_cast hpos
  obtain ⟨s1, s2⟩ := ilog2_spec (n : ℚ) (ne_of_gt hq)
  rw [abs_of_pos hq] at s1 s2
  have two : (1 : ℚ) < 2 := by norm_num
  have hlt : (n : ℚ) < 2 ^ (24 : ℤ) := by
    have : (n : ℚ) < ((2 ^ 24 : ℕ) : ℚ) := by exact_mod_cast hn
    rw [show (2 : ℚ) ^ (24 : ℤ) = ((2 ^ 24 : ℕ) : ℚ) by norm_num]
    exact this
  have hE1 : ilog2 (n : ℚ) < 24 := (zpow_lt_zpow_iff_right₀ two).mp (lt_of_le_of_lt s1 hlt)
  have hE : max (ilog2 (n : ℚ)) (-126) ≤ 23 := by omega
  apply le_antisymm
  · exact_mod_cast float32_le_intCast hq hE (n : ℤ) (by simp)
  · exact_mod_cast intCast_le_float32 hq hE (n : ℤ) (by simp)

theorem float32_two_pow_23_add_half : float32 (2 ^ 23 + 1 / 2) = 2 ^ 23 := by decide!

end Go
namespace Go

/-- Adding one half to a `float32` value of at most `2 ^ 23` and rounding the
sum to `float32` does not reach the next integer, unless the sum is below 1. -/
theorem float32_add_half_lt_aux (x v z : ℚ) (k : ℤ) (hvdef : v = float32 x)
    (hzdef : z = v + 1 / 2) (hkdef : k = ⌊z⌋) (hx : 0 ≤ x) (hv : v ≤ 2 ^ 23) (hk : 1 ≤ k) :
    float32 z < (k : ℚ) + 1 := by
  have two : (1 : ℚ) < 2 := by norm_num
  have hv0 : 0 ≤ v := by rw [hvdef]; exact float32_nonneg hx
  have hz : 0 < z := by linarith
  have hkz : (k : ℚ) ≤ z := by rw [hkdef]; exact Int.floor_le z
  have hzk : z < (k : ℚ) + 1 := by rw [hkdef]; exact Int.lt_floor_add_one z
  have hk1 : (1 : ℚ) ≤ k := by exact_mod_cast hk
  obtain ⟨sz1, sz2⟩ := ilog2_spec z (ne_of_gt hz)
  rw [abs_of_pos hz] at sz1 sz2
  have hZ0 : 0 ≤ ilog2 z := by
    have : (2 : ℚ) ^ (0 : ℤ) < 2 ^ (ilog2 z + 1) := by
      rw [zpow_zero]
      linarith
    have := (zpow_lt_zpow_iff_right₀ two).mp this
    omega
  have hZ23 : ilog2 z ≤ 23 := by
    have : (2 : ℚ) ^ ilog2 z < 2 ^ (24 : ℤ) := by
      have : z < 2 ^ (24 : ℤ) := by
        have : (2 : ℚ) ^ (24 : ℤ) = 16777216 := by norm_num
        rw [this]
        have : (2 : ℚ) ^ 23 = 8388608 := by norm_num
        linarith
      linarith
    have := (zpow_lt_zpow_iff_right₀ two).mp this
    omega
  have hEz : max (ilog2 z) (-126) = ilog2 z := by omega
  have hqz : quantum z = 2 ^ (ilog2 z - 23) := by rw [quantum_eq, hEz]
  have hqz1 : quantum z ≤ 1 := by
    rw [hqz]
    calc (2 : ℚ) ^ (ilog2 z - 23) ≤ 2 ^ (0 : ℤ) := zpow_le_zpow_right₀ two.le (by omega)
      _ = 1 := zpow_zero _
  by_cases hv23 : v = 2 ^ 23
  · have e : z = 2 ^ 23 + 1 / 2 := by rw [hzdef, hv23]
    rw [e, float32_two_pow_23_add_half]
    have : ((2 ^ 23 : ℤ) : ℚ) ≤ z := by
      rw [e]
      norm_num
    have : (2 ^ 23 : ℤ) ≤ k := by rw [hkdef]; exact Int.le_floor.mpr this
    have : ((2 ^ 23 : ℤ) : ℚ) ≤ (k : ℚ) := by exact_mod_cast this
    push_cast at this
    linarith
  have hvlt : v < 2 ^ 23 := lt_of_le_of_ne hv hv23
  have hxpos : 0 < x := by
    rcases eq_or_lt_of_le hx with h | h
    · exfalso
      have : v = 0 := by rw [hvdef, ← h, float32_zero]
      have : z = 1 / 2 := by rw [hzdef, this]; norm_num
      linarith
    · exact h
  obtain ⟨sx1, sx2⟩ := ilog2_spec x (ne_of_gt hxpos)
  rw [abs_of_pos hxpos] at sx1 sx2
  obtain ⟨E, hEdef⟩ : ∃ E : ℤ, E = max (ilog2 x) (-126) := ⟨_, rfl⟩
  have hq : quantum x = 2 ^ (E - 23) := by rw [quantum_eq, hEdef]
  have hvE : v ≤ 2 ^ (E + 1) := by
    rw [hvdef]
    apply float32_le_two_zpow hxpos (E + 1) (by omega)
    exact le_trans sx2.le (zpow_le_zpow_right₀ two.le (by omega))
  have hE22 : E ≤ 22 := by
    by_contra hcon
    have h23 : 23 ≤ E := by omega
    have hEx : ilog2 x = E := by omega
    have h1 : (2 : ℚ) ^ E ≤ v := by
      rw [hvdef]
      exact two_zpow_le_float32 hxpos E (by omega) (by rw [← hEx]; exact sx1)
    have h2 : (2 : ℚ) ^ (23 : ℤ) ≤ 2 ^ E := zpow_le_zpow_right₀ two.le h23
    have h3 : (2 : ℚ) ^ (23 : ℤ) = 2 ^ 23 := by norm_num
    linarith
  by_cases hZE : ilog2 z ≤ E
  · -- the sum stays in the binade of the spacing of `v`
    have hvm : v = (roundHalfEven (x / quantum x) : ℚ) * quantum x := by
      rw [hvdef]
      exact float32_eq x (ne_of_gt hxpos)
    have hqpos := quantum_pos x
    have hhalf : (k : ℚ) + 1 / 2 = (((2 * k + 1) * 2 ^ (22 - E).toNat : ℤ) : ℚ) * quantum x := by
      rw [hq]
      push_cast
      rw [mul_assoc, ← zpow_natCast, Int.toNat_of_nonneg (by omega),
        ← zpow_add₀ (by norm_num : (2 : ℚ) ≠ 0)]
      have e : 22 - E + (E - 23) = -1 := by ring
      rw [e]
      norm_num
      ring
    have hvk : v < (k : ℚ) + 1 / 2 := by linarith
    have hm : roundHalfEven (x / quantum x) + 1 ≤ (2 * k + 1) * 2 ^ (22 - E).toNat := by
      have : (roundHalfEven (x / quantum x) : ℚ) <
          (((2 * k + 1) * 2 ^ (22 - E).toNat : ℤ) : ℚ) := by
        rw [hvm, hhalf] at hvk
        exact lt_of_mul_lt_mul_right hvk hqpos.le
      have := Int.cast_lt.mp this
      omega
    have hstep : v + quantum x ≤ (k : ℚ) + 1 / 2 := by
      rw [hvm, hhalf]
      have : ((roundHalfEven (x / quantum x) + 1 : ℤ) : ℚ) ≤
          (((2 * k + 1) * 2 ^ (22 - E).toNat : ℤ) : ℚ) := by exact_mod_cast hm
      calc (roundHalfEven (x / quantum x) : ℚ) * quantum x + quantum x
          = ((roundHalfEven (x / quantum x) + 1 : ℤ) : ℚ) * quantum x := by push_cast; ring
        _ ≤ _ := mul_le_mul_of_nonneg_right this hqpos.le
    have hqq : quantum z ≤ quantum x := by
      rw [hqz, hq]
      exact zpow_le_zpow_right₀ two.le (by omega)
    have hzle : z ≤ (k : ℚ) + 1 - quantum z := by linarith
    have hrep : (k : ℚ) + 1 - quantum z =
        (((k + 1) * 2 ^ (23 - max (ilog2 z) (-126)).toNat - 1 : ℤ) : ℚ) * quantum z := by
      have := intCast_eq_mul_quantum z (by omega) (k + 1)
      push_cast at this ⊢
      rw [sub_mul, ← this]
      ring
    have := float32_le_of_le_mul hz _ (by rw [← hrep]; exact hzle)
    rw [← hrep] at this
    have hqzpos := quantum_pos z
    linarith
  · -- the sum reaches the next binade, whose first value is an integer
    have hZE1 : E + 1 ≤ ilog2 z := by omega
    have hvP : v ≤ 2 ^ ilog2 z := hvE.trans (zpow_le_zpow_right₀ two.le hZE1)
    have hP : (2 : ℚ) ^ ilog2 z = ((2 ^ (ilog2 z).toNat : ℤ) : ℚ) := by
      push_cast
      rw [← zpow_natCast, Int.toNat_of_nonneg hZ0]
    have hPk : (2 : ℤ) ^ (ilog2 z).toNat ≤ k := by
      rw [hkdef]
      exact Int.le_floor.mpr (by rw [← hP]; exact sz1)
    have hkP : k ≤ (2 : ℤ) ^ (ilog2 z).toNat := by
      have : (k : ℚ) < ((2 ^ (ilog2 z).toNat : ℤ) : ℚ) + 1 := by
        rw [← hP]
        linarith
      have : (k : ℚ) < ((2 ^ (ilog2 z).toNat + 1 : ℤ) : ℚ) := by
        push_cast at this ⊢
        exact this
      have := Int.cast_lt.mp this
      omega
    have hkeq : (k : ℚ) = 2 ^ ilog2 z := by
      rw [hP]
      exact_mod_cast le_antisymm hkP hPk
    have herr := float32_le_add_half_quantum hz
    by_cases hveq : v = 2 ^ ilog2 z
    · have hZlt : ilog2 z < 23 := by
        have : (2 : ℚ) ^ ilog2 z < 2 ^ (23 : ℤ) := by
          rw [← hveq]
          have h3 : (2 : ℚ) ^ (23 : ℤ) = 2 ^ 23 := by norm_num
          rw [h3]
          exact hvlt
        exact (zpow_lt_zpow_iff_right₀ two).mp this
      have hqhalf : quantum z ≤ 1 / 2 := by
        rw [hqz]
        calc (2 : ℚ) ^ (ilog2 z - 23) ≤ 2 ^ (-1 : ℤ) := zpow_le_zpow_right₀ two.le (by omega)
          _ = 1 / 2 := by norm_num
      have : z = (k : ℚ) + 1 / 2 := by rw [hzdef, hveq, hkeq]
      linarith
    · have hvlt2 : v < 2 ^ ilog2 z := lt_of_le_of_ne hvP hveq
      have : z < (k : ℚ) + 1 / 2 := by
        rw [hkeq]
        linarith
      linarith

/-- Adding one half to a `float32` value of at most `2 ^ 23` and rounding the
sum to `float32` gives a value with the same integer part as the exact sum,
unless the exact sum is below 1, where the integer part is 0 or 1. -/
theorem floor_float32_add_half (x : ℚ) (hx : 0 ≤ x) (hv : float32 x ≤ 2 ^ 23) :
    (if ⌊float32 (float32 x + 1 / 2)⌋ = 0 then 1 else ⌊float32 (float32 x + 1 / 2)⌋) =
      max 1 ⌊float32 x + 1 / 2⌋ := by
  have two : (1 : ℚ) < 2 := by norm_num
  have hv0 : 0 ≤ float32 x := float32_nonneg hx
  have hz : 0 < float32 x + 1 / 2 := by linarith
  obtain ⟨sz1, sz2⟩ := ilog2_spec (float32 x + 1 / 2) (ne_of_gt hz)
  rw [abs_of_pos hz] at sz1 sz2
  have hZ23 : ilog2 (float32 x + 1 / 2) ≤ 23 := by
    have : (2 : ℚ) ^ ilog2 (float32 x + 1 / 2) < 2 ^ (24 : ℤ) := by
      have h24 : (2 : ℚ) ^ (24 : ℤ) = 16777216 := by norm_num
      have h23 : (2 : ℚ) ^ 23 = 8388608 := by norm_num
      rw [h24]
      rw [h23] at hv
      linarith
    have := (zpow_lt_zpow_iff_right₀ two).mp this
    omega
  have hZm : -1 ≤ ilog2 (float32 x + 1 / 2) := by
    have : (2 : ℚ) ^ (-1 : ℤ) < 2 ^ (ilog2 (float32 x + 1 / 2) + 1) := by
      have : (2 : ℚ) ^ (-1 : ℤ) = 1 / 2 := by norm_num
      rw [this]
      linarith
    have := (zpow_lt_zpow_iff_right₀ two).mp this
    omega
  have hE : max (ilog2 (float32 x + 1 / 2)) (-126) ≤ 23 := by omega
  have hkz : ((⌊float32 x + 1 / 2⌋ : ℤ) : ℚ) ≤ float32 x + 1 / 2 := Int.floor_le _
  have hzk : float32 x + 1 / 2 < ((⌊float32 x + 1 / 2⌋ : ℤ) : ℚ) + 1 := Int.lt_floor_add_one _
  have hk0 : 0 ≤ ⌊float32 x + 1 / 2⌋ := Int.floor_nonneg.mpr hz.le
  have lower := intCast_le_float32 hz hE _ hkz
  have upper := float32_le_intCast hz hE (⌊float32 x + 1 / 2⌋ + 1) (by push_cast; exact hzk.le)
  rcases Int.lt_or_le (⌊float32 x + 1 / 2⌋) 1 with hlt | hge
  · have hk : ⌊float32 x + 1 / 2⌋ = 0 := by omega
    rw [hk] at lower upper ⊢
    have h0 : 0 ≤ ⌊float32 (float32 x + 1 / 2)⌋ := Int.floor_nonneg.mpr (by simpa using lower)
    have h1 : ⌊float32 (float32 x + 1 / 2)⌋ ≤ 1 := by
      have : ((⌊float32 (float32 x + 1 / 2)⌋ : ℤ) : ℚ) ≤ ((1 : ℤ) : ℚ) :=
        (Int.floor_le _).trans (by simpa using upper)
      exact_mod_cast this
    split_ifs with h
    · simp
    · have : ⌊float32 (float32 x + 1 / 2)⌋ = 1 := by omega
      rw [this]
      simp
  · have hlt := float32_add_half_lt_aux x (float32 x) (float32 x + 1 / 2)
      ⌊float32 x + 1 / 2⌋ rfl rfl rfl hx hv hge
    have hfl : ⌊float32 (float32 x + 1 / 2)⌋ = ⌊float32 x + 1 / 2⌋ :=
      Int.floor_eq_iff.mpr ⟨lower, hlt⟩
    rw [hfl, if_neg (by omega), max_eq_right hge]

end Go
namespace tcdp

/-! ### Batch sizes -/

/-- C3 fails as stated, at three inputs. A negative count: `(-2, 1)` gives
`"-1"` where round-half-up of the product gives -2, because the conversion to
`int` truncates towards zero. A large count: `(8388609, 1)` gives `"8388610"`
where the product is 8388609, because the `float32` sum rounds to even. A
small count: `(5, 0.7)` gives `"4"` where round-half-up of the exact product
of 5 and the `float32` value of 0.7 gives 3, because the `float32` product
rounds up to 3.5. -/
theorem workerCountRatio_not_spec :
    (workerCountRatio (-2) 1 = "-1" ∧ workerCountRatioSpec (-2) 1 = "-2") ∧
    (workerCountRatio 8388609 1 = "8388610" ∧ workerCountRatioSpec 8388609 1 = "8388609") ∧
    (workerCountRatio 5 (Go.float32 (7 / 10)) = "4" ∧
      workerCountRatioSpec 5 (Go.float32 (7 / 10)) = "3") := by
  decide!

/-- C3 (amended): for a worker count from 0 to `2 ^ 23` and a ratio in
`(0, 1]`, `workerCountRatio` is the decimal string of round-half-up of the
`float32` product of the count and the ratio (the exact product rounded to
`float32`), with 0 replaced by 1; `(10, 0.3)` gives `"3"` and `(1, 0.3)` gives
`"1"`. -/
theorem workerCountRatio_round (workers : Int) (ratio : ℚ) (hw : 0 ≤ workers)
    (hb : workers ≤ 2 ^ 23) (hr0 : 0 < ratio) (hr1 : ratio ≤ 1) :
    workerCountRatio workers ratio =
      Go.Itoa (if roundHalfUp (Go.float32 ((workers : ℚ) * ratio)) = 0 then 1
        else roundHalfUp (Go.float32 ((workers : ℚ) * ratio))) ∧
    workerCountRatio 10 (Go.float32 (3 / 10)) = "3" ∧
    workerCountRatio 1 (Go.float32 (3 / 10)) = "1" := by
  refine ⟨?_, by decide!, by decide!⟩
  obtain ⟨h0, heq⟩ := workerCountRatioRounded_eq_of_nonneg workers ratio hw (by omega) hr0 hr1
  have hwq : (0 : ℚ) ≤ workers := by exact_mod_cast hw
  have hfix : Go.float32 (workers : ℚ) = workers := by
    have h := Go.float32_natCast workers.toNat (by omega)
    have e : ((workers.toNat : ℕ) : ℚ) = (workers : ℚ) := by
      have : ((workers.toNat : ℕ) : ℤ) = workers := Int.toNat_of_nonneg hw
      exact_mod_cast this
    rwa [e] at h
  have hprod : (workers : ℚ) * ratio ≤ 8388608 := by
    have h1 : (workers : ℚ) ≤ 8388608 := by
      have : workers ≤ 8388608 := by omega
      exact_mod_cast this
    calc (workers : ℚ) * ratio ≤ (workers : ℚ) * 1 := mul_le_mul_of_nonneg_left hr1 hwq
      _ ≤ 8388608 := by rwa [mul_one]
  have hv : Go.float32 ((workers : ℚ) * ratio) ≤ 2 ^ 23 := by
    have h := Go.float32_mono (mul_nonneg hwq hr0.le) hprod
    have e : Go.float32 8388608 = 8388608 := by
      have := Go.float32_natCast 8388608 (by norm_num)
      simpa using this
    rw [e] at h
    norm_num
    exact h
  have hkey := Go.floor_float32_add_half ((workers : ℚ) * ratio) (mul_nonneg hwq hr0.le) hv
  have hk0 : 0 ≤ ⌊Go.float32 ((workers : ℚ) * ratio) + 1 / 2⌋ :=
    Int.floor_nonneg.mpr (by
      have := Go.float32_nonneg (mul_nonneg hwq hr0.le)
      linarith)
  unfold workerCountRatio roundHalfUp
  rw [heq, hfix, hkey]
  congr 1
  split_ifs with h
  · rw [h]
    rfl
  · exact max_eq_right (by omega)

/-- Witness for C3 (amended) at 3 workers and the ratio one half: the product
1.5 rounds half up to 2. -/
theorem workerCountRatio_round_witness :
    (0 : Int) ≤ 3 ∧ (3 : Int) ≤ 2 ^ 23 ∧ (0 : ℚ) < 1 / 2 ∧ (1 / 2 : ℚ) ≤ 1 ∧
    workerCountRatio 3 (1 / 2) = "2" :=
  ⟨by decide, by decide, by norm_num, by norm_num,
    (workerCountRatio_round 3 (1 / 2) (by decide) (by decide) (by norm_num) (by norm_num)).1.trans
      (by decide!)⟩

/-- C4 fails as stated: for -10 workers and the ratio one half the number
rendered is -4. -/
theorem workerCountRatio_negative :
    workerCountRatioRounded (-10) (1 / 2) = -4 ∧ workerCountRatio (-10) (1 / 2) = "-4" ∧
    ¬ (1 ≤ workerCountRatioRounded (-10) (1 / 2)) := by
  decide!

/-- C4 (amended): for a worker count from 0 up to, but excluding,
`2 ^ 63 - 2 ^ 38` and a ratio in `(0, 1]`, the number `workerCountRatio`
renders is at least 1. -/
theorem workerCountRatio_ge_one (workers : Int) (ratio : ℚ) (hw : 0 ≤ workers)
    (hb : workers < 2 ^ 63 - 2 ^ 38) (hr0 : 0 < ratio) (hr1 : ratio ≤ 1) :
    workerCountRatio workers ratio = Go.Itoa (workerCountRatioRounded workers ratio) ∧
    1 ≤ workerCountRatioRounded workers ratio := by
  refine ⟨rfl, ?_⟩
  obtain ⟨h0, heq⟩ := workerCountRatioRounded_eq_of_nonneg workers ratio hw hb hr0 hr1
  rw [heq]
  split_ifs with h
  · exact le_refl 1
  · omega

/-- Witness for C4 (amended) at one worker and the `float32` ratio 0.3. -/
theorem workerCountRatio_ge_one_witness :
    (0 : ℚ) < Go.float32 (3 / 10) ∧ Go.float32 (3 / 10) ≤ 1 ∧
    1 ≤ workerCountRatioRounded 1 (Go.float32 (3 / 10)) :=
  ⟨by decide!, by decide!,
    (workerCountRatio_ge_one 1 (Go.float32 (3 / 10)) (by decide) (by decide) (by decide!)
      (by decide!)).2⟩

end tcdp

/-! ### Tags, construction and converters of the cluster resource -/

theorem clusterTags_keys_nodup (c : String) :
    ["kubernetes.io/cluster/" ++ c, "giantswarm.io/cluster", "giantswarm.io/organization",
      "giantswarm.io/installation"].Nodup := by
  have hk : ∀ s : String, s.data.head? = some 'g' → "kubernetes.io/cluster/" ++ c ≠ s := by
    intro s hs heq
    have := congrArg (fun t : String => t.data.head?) heq
    simp [String.data_append] at this
    rw [hs] at this
    revert this
    cases hc : c.data <;> simp [hc]
  simp only [List.nodup_cons, List.mem_cons, List.mem_singleton, List.not_mem_nil, not_or,
    List.nodup_nil, not_false_eq_true, and_true]
  refine ⟨⟨hk _ (by decide), hk _ (by decide), hk _ (by decide)⟩, ⟨by decide, by decide⟩, by decide⟩

/-- C11: for the custom object `cr` and the installation name `i`, the tags of
`getCloudFormationTags` (cluster resource and control plane initializer), in
whatever order the map is walked, are exactly four, their keys are distinct,
and they are the tags `kubernetes.io/cluster/<c> = owned`,
`giantswarm.io/cluster = c`, `giantswarm.io/organization = o` and
`giantswarm.io/installation = i`; two custom objects with the same cluster ID
and organization give the same tags. -/
theorem getCloudFormationTags_spec (cr : AWSConfig) (i : String) :
    (∀ (W : Type) (r : tccp.Resource W) (tags : List cloudformation.Tag),
      r.installationName = i → tags.Perm (r.getCloudFormationTags cr) →
      tags.length = 4 ∧ (tags.map fun t => t.Key).Nodup ∧
      ∀ t, t ∈ tags ↔
        t = ⟨"kubernetes.io/cluster/" ++ cr.ClusterID, "owned"⟩ ∨
        t = ⟨"giantswarm.io/cluster", cr.ClusterID⟩ ∨
        t = ⟨"giantswarm.io/organization", cr.CustomerID⟩ ∨
        t = ⟨"giantswarm.io/installation", i⟩) ∧
    (∀ (r : cpi.Resource) (tags : List cloudformation.Tag),
      r.installationName = i → tags.Perm (r.getCloudFormationTags cr) →
      tags.length = 4 ∧ (tags.map fun t => t.Key).Nodup ∧
      ∀ t, t ∈ tags ↔
        t = ⟨"kubernetes.io/cluster/" ++ cr.ClusterID, "owned"⟩ ∨
        t = ⟨"giantswarm.io/cluster", cr.ClusterID⟩ ∨
        t = ⟨"giantswarm.io/organization", cr.CustomerID⟩ ∨
        t = ⟨"giantswarm.io/installation", i⟩) ∧
    (∀ (W : Type) (r1 r2 : tccp.Resource W) (cr2 : AWSConfig),
      r1.installationName = r2.installationName → cr2.ClusterID = cr.ClusterID →
      cr2.CustomerID = cr.CustomerID →
      r1.getCloudFormationTags cr2 = r2.getCloudFormationTags cr) ∧
    (∀ (r1 r2 : cpi.Resource) (cr2 : AWSConfig),
      r1.installationName = r2.installationName → cr2.ClusterID = cr.ClusterID →
      cr2.CustomerID = cr.CustomerID →
      r1.getCloudFormationTags cr2 = r2.getCloudFormationTags cr) := by
  have hkey : ∀ (tags : List cloudformation.Tag),
      tags.Perm (awstags.NewCloudFormation (key.ClusterTags cr i)) →
      tags.length = 4 ∧ (tags.map fun t => t.Key).Nodup ∧
      ∀ t, t ∈ tags ↔
        t = ⟨"kubernetes.io/cluster/" ++ cr.ClusterID, "owned"⟩ ∨
        t = ⟨"giantswarm.io/cluster", cr.ClusterID⟩ ∨
        t = ⟨"giantswarm.io/organization", cr.CustomerID⟩ ∨
        t = ⟨"giantswarm.io/installation", i⟩ := by
    intro tags hp
    refine ⟨?_, ?_, ?_⟩
    · rw [hp.length_eq]
      rfl
    · have hmap := hp.map (fun t : cloudformation.Tag => t.Key)
      rw [hmap.nodup_iff]
      exact clusterTags_keys_nodup cr.ClusterID
    · intro t
      rw [hp.mem_iff]
      simp [awstags.NewCloudFormation, key.ClusterTags]
  refine ⟨?_, ?_, ?_, ?_⟩
  · intro W r tags hi hp
    apply hkey
    rw [← hi]
    exact hp
  · intro r tags hi hp
    apply hkey
    rw [← hi]
    exact hp
  · intro W r1 r2 cr2 hi hc ho
    simp [tccp.Resource.getCloudFormationTags, key.ClusterTags, hi, hc, ho]
  · intro r1 r2 cr2 hi hc ho
    simp [cpi.Resource.getCloudFormationTags, key.ClusterTags, hi, hc, ho]

/-- C14: `tccp.New` fails, with the invalid config error, exactly when the
`G8sClient` is nil, the `Logger` is nil or the `EncrypterBackend` is empty; in
every other case it returns the resource whose fields are the corresponding
fields of the configuration, and the name of that resource is `tccpv24`. -/
theorem tccp_New_spec {W : Type} (config : tccp.Config W) :
    ((∃ err, tccp.New config = Except.error err) ↔
      (config.G8sClient = none ∨ config.Logger = none ∨ config.EncrypterBackend = "")) ∧
    (∀ err, tccp.New config = Except.error err → err = Error.invalidConfig) ∧
    (¬ (config.G8sClient = none ∨ config.Logger = none ∨ config.EncrypterBackend = "") →
      tccp.New config = Except.ok
        { apiWhiteList := config.APIWhitelist
          encrypterRoleManager := config.EncrypterRoleManager
          g8sClient := config.G8sClient
          logger := config.Logger
          encrypterBackend := config.EncrypterBackend
          guestPrivateSubnetMaskBits := config.GuestPrivateSubnetMaskBits
          guestPublicSubnetMaskBits := config.GuestPublicSubnetMaskBits
          installationName := config.InstallationName
          monitoring := config.AdvancedMonitoringEC2
          publicRouteTables := config.PublicRouteTables
          route53Enabled := config.Route53Enabled }) ∧
    (∀ r, tccp.New config = Except.ok r → r.Name = "tccpv24") := by
  unfold tccp.New
  by_cases h1 : config.G8sClient = none
  · simp [h1]
  by_cases h2 : config.Logger = none
  · simp [h1, h2]
  by_cases h3 : config.EncrypterBackend = ""
  · simp [h1, h2, h3]
  simp [h1, h2, h3, tccp.Resource.Name, tccp.Name]

/-- C15: each of the four converters fails, with the wrong type error, exactly
when its argument is neither nil nor a value of the type it expects; on a
value of that type it returns the value unchanged, and on nil it returns the
zero value without error. -/
theorem converters_spec {S : Type} (zero : S) (v : tccp.Value S) :
    (((∃ err, tccp.toCreateStackInput v = Except.error err) ↔
        (v ≠ tccp.Value.nil ∧ ∀ x, v ≠ tccp.Value.createStackInput x)) ∧
      (∀ err, tccp.toCreateStackInput v = Except.error err → err = Error.wrongType) ∧
      (∀ x, tccp.toCreateStackInput (tccp.Value.createStackInput x : tccp.Value S) = Except.ok x) ∧
      tccp.toCreateStackInput (tccp.Value.nil : tccp.Value S) =
        Except.ok cloudformation.CreateStackInput.zero) ∧
    (((∃ err, tccp.toDeleteStackInput v = Except.error err) ↔
        (v ≠ tccp.Value.nil ∧ ∀ x, v ≠ tccp.Value.deleteStackInput x)) ∧
      (∀ err, tccp.toDeleteStackInput v = Except.error err → err = Error.wrongType) ∧
      (∀ x, tccp.toDeleteStackInput (tccp.Value.deleteStackInput x : tccp.Value S) = Except.ok x) ∧
      tccp.toDeleteStackInput (tccp.Value.nil : tccp.Value S) =
        Except.ok cloudformation.DeleteStackInput.zero) ∧
    (((∃ err, tccp.toStackState zero v = Except.error err) ↔
        (v ≠ tccp.Value.nil ∧ ∀ x, v ≠ tccp.Value.stackState x)) ∧
      (∀ err, tccp.toStackState zero v = Except.error err → err = Error.wrongType) ∧
      (∀ x, tccp.toStackState zero (tccp.Value.stackState x) = Except.ok x) ∧
      tccp.toStackState zero tccp.Value.nil = Except.ok zero) ∧
    (((∃ err, tccp.toUpdateStackInput v = Except.error err) ↔
        (v ≠ tccp.Value.nil ∧ ∀ x, v ≠ tccp.Value.updateStackInput x)) ∧
      (∀ err, tccp.toUpdateStackInput v = Except.error err → err = Error.wrongType) ∧
      (∀ x, tccp.toUpdateStackInput (tccp.Value.updateStackInput x : tccp.Value S) = Except.ok x) ∧
      tccp.toUpdateStackInput (tccp.Value.nil : tccp.Value S) =
        Except.ok cloudformation.UpdateStackInput.zero) := by
  cases v <;>
    simp [tccp.toCreateStackInput, tccp.toDeleteStackInput, tccp.toStackState,
      tccp.toUpdateStackInput]

/-! ### The controller context -/

/-- C12 fails as stated: in a pass whose status tree is still fresh, so that
the tenant cluster account ID, the control plane VPC CIDR and the tenant VPC ID
were never written, both builders succeed and carry the empty default. -/
theorem builders_default_unwritten_fields :
    sample.cpiResource.newIAMRolesParams (some sample.freshCC) sample.cr =
      Except.ok { PeerAccessRoleName := "5xchu-vpc-peer-access", TenantAWSAccountID := "" } ∧
    sample.tcdpResource.newSecurityGroups (some sample.freshCC) sample.cr =
      Except.ok { ClusterID := "5xchu", ControlPlaneVPCCIDR := "", TenantClusterVPCID := "" } := by
  constructor <;> rfl

/-- C12 (amended): `newIAMRolesParams` and `newSecurityGroups` fail exactly
when no controller context is attached to the Go context, with the error of
the lookup; with a controller context they succeed and copy the fields they
read as they stand, written or not. -/
theorem builders_copy_context_fields {σ : Type} (cr : AWSConfig) :
    (∀ (r : cpi.Resource) (cc : controllercontext.Context σ),
      r.newIAMRolesParams (some cc) cr =
        Except.ok
          { PeerAccessRoleName := cr.PeerAccessRoleName
            TenantAWSAccountID := cc.Status.TenantClusterAWSAccountID }) ∧
    (∀ (r : tcdp.Resource) (cc : controllercontext.Context σ),
      r.newSecurityGroups (some cc) cr =
        Except.ok
          { ClusterID := cr.ClusterID
            ControlPlaneVPCCIDR := cc.Status.ControlPlaneVPCCIDR
            TenantClusterVPCID := cc.Status.TenantClusterVPCID }) ∧
    (∀ (r : cpi.Resource),
      r.newIAMRolesParams (none : Option (controllercontext.Context σ)) cr =
        Except.error Error.notFound) ∧
    (∀ (r : tcdp.Resource),
      r.newSecurityGroups (none : Option (controllercontext.Context σ)) cr =
        Except.error Error.notFound) := by
  refine ⟨fun r cc => rfl, fun r cc => rfl, fun r => rfl, fun r => rfl⟩

/-- C16: `EnsureCreated` of the encryption key resource returns nil exactly
when the conversion of the object, `EnsureCreatedEncryptionKey`,
`EncryptionKey` and the lookup of the controller context all succeed; it then
leaves the controller context changed in `Status.Cluster.EncryptionKey` only,
which holds the key the encrypter returned; and when one of the four fails,
the error of that one is returned and the Go context is left as it was. -/
theorem encryptionkey_EnsureCreated_spec {σ τ : Type} (r : encryptionkey.Resource σ)
    (ctx : Option (controllercontext.Context τ)) (obj : Obj) (s : σ) :
    ((r.EnsureCreated ctx obj s).outcome = Outcome.ok ↔
      ∃ cr s1 encryptionKey s2 cc,
        key.ToCustomObject obj = Except.ok cr ∧
        r.encrypter.EnsureCreatedEncryptionKey cr s = (none, s1) ∧
        r.encrypter.EncryptionKey cr s1 = (Except.ok encryptionKey, s2) ∧
        controllercontext.FromContext ctx = Except.ok cc) ∧
    (∀ cr s1 encryptionKey s2 cc,
      key.ToCustomObject obj = Except.ok cr →
      r.encrypter.EnsureCreatedEncryptionKey cr s = (none, s1) →
      r.encrypter.EncryptionKey cr s1 = (Except.ok encryptionKey, s2) →
      controllercontext.FromContext ctx = Except.ok cc →
      (r.EnsureCreated ctx obj s).outcome = Outcome.ok ∧
      (r.EnsureCreated ctx obj s).ctx =
        some
          { ControlPlane := cc.ControlPlane
            TenantCluster := cc.TenantCluster
            Status :=
              { ControlPlaneVPCCIDR := cc.Status.ControlPlaneVPCCIDR
                TenantClusterAWSAccountID := cc.Status.TenantClusterAWSAccountID
                TenantClusterVPCID := cc.Status.TenantClusterVPCID
                TenantClusterTCCPASGDesiredCapacity := cc.Status.TenantClusterTCCPASGDesiredCapacity
                ClusterEncryptionKey := encryptionKey } }) ∧
    ((r.EnsureCreated ctx obj s).outcome ≠ Outcome.ok →
      (r.EnsureCreated ctx obj s).ctx = ctx) ∧
    (∀ err, key.ToCustomObject obj = Except.error err →
      (r.EnsureCreated ctx obj s).outcome = Outcome.error err) ∧
    (∀ cr err s1, key.ToCustomObject obj = Except.ok cr →
      r.encrypter.EnsureCreatedEncryptionKey cr s = (some err, s1) →
      (r.EnsureCreated ctx obj s).outcome = Outcome.error err) ∧
    (∀ cr s1 err s2, key.ToCustomObject obj = Except.ok cr →
      r.encrypter.EnsureCreatedEncryptionKey cr s = (none, s1) →
      r.encrypter.EncryptionKey cr s1 = (Except.error err, s2) →
      (r.EnsureCreated ctx obj s).outcome = Outcome.error err) ∧
    (∀ cr s1 encryptionKey s2 err, key.ToCustomObject obj = Except.ok cr →
      r.encrypter.EnsureCreatedEncryptionKey cr s = (none, s1) →
      r.encrypter.EncryptionKey cr s1 = (Except.ok encryptionKey, s2) →
      controllercontext.FromContext ctx = Except.error err →
      (r.EnsureCreated ctx obj s).outcome = Outcome.error err) := by
  unfold encryptionkey.Resource.EnsureCreated
  rcases hO : key.ToCustomObject obj with e | cr
  case' ok =>
    rcases hE : r.encrypter.EnsureCreatedEncryptionKey cr s with ⟨oe, s1⟩
    cases oe
    case' none =>
      rcases hK : r.encrypter.EncryptionKey cr s1 with ⟨ok, s2⟩
      cases ok
      case' ok => rcases hC : controllercontext.FromContext ctx with e | cc
  all_goals
    refine ⟨⟨fun h => ?_, fun ⟨cr1, t1, k, t2, c1, h1, h2, h3, h4⟩ => ?_⟩,
      fun cr1 t1 k t2 c1 h1 h2 h3 h4 => ?_, fun h => ?_, fun err h1 => ?_,
      fun cr1 err t1 h1 h2 => ?_, fun cr1 t1 err t2 h1 h2 h3 => ?_,
      fun cr1 t1 k t2 err h1 h2 h3 h4 => ?_⟩ <;> simp_all [microerror.Mask]

/-- C13 fails as stated: on a context that already holds `key-1`, stored by a
first `EnsureCreated`, a second `EnsureCreated` whose encrypter returns `key-2`
returns nil and the context holds `key-2`. -/
theorem encryptionkey_second_write_overwrites :
    ((sample.encryptionkeyResource.EnsureCreated (some sample.freshCC) (Obj.awsConfig sample.cr)
        ["key-1", "key-2"]).ctx.map fun cc => cc.Status.ClusterEncryptionKey) = some "key-1" ∧
    (sample.encryptionkeyResource.EnsureCreated
        (sample.encryptionkeyResource.EnsureCreated (some sample.freshCC)
          (Obj.awsConfig sample.cr) ["key-1", "key-2"]).ctx
        (Obj.awsConfig sample.cr)
        (sample.encryptionkeyResource.EnsureCreated (some sample.freshCC)
          (Obj.awsConfig sample.cr) ["key-1", "key-2"]).state).outcome = Outcome.ok ∧
    ((sample.encryptionkeyResource.EnsureCreated
        (sample.encryptionkeyResource.EnsureCreated (some sample.freshCC)
          (Obj.awsConfig sample.cr) ["key-1", "key-2"]).ctx
        (Obj.awsConfig sample.cr)
        (sample.encryptionkeyResource.EnsureCreated (some sample.freshCC)
          (Obj.awsConfig sample.cr) ["key-1", "key-2"]).state).ctx.map
      fun cc => cc.Status.ClusterEncryptionKey) = some "key-2" := by
  decide

/-- C13 (amended): the encryption key field is not write-once. On a context
that holds any key, an `EnsureCreated` whose collaborators succeed returns nil
and stores the key the encrypter returned in place of the stored one. -/
theorem encryptionkey_EnsureCreated_overwrites {σ τ : Type} (r : encryptionkey.Resource σ)
    (cc : controllercontext.Context τ) (cr : AWSConfig) (s s1 s2 : σ) (encryptionKey : String)
    (hE : r.encrypter.EnsureCreatedEncryptionKey cr s = (none, s1))
    (hK : r.encrypter.EncryptionKey cr s1 = (Except.ok encryptionKey, s2)) :
    (r.EnsureCreated (some cc) (Obj.awsConfig cr) s).outcome = Outcome.ok ∧
    ((r.EnsureCreated (some cc) (Obj.awsConfig cr) s).ctx.map
      fun c => c.Status.ClusterEncryptionKey) = some encryptionKey := by
  simp [encryptionkey.Resource.EnsureCreated, key.ToCustomObject, controllercontext.FromContext,
    hE, hK]

/-- Witness for C13 (amended): on the context that holds `key-1`, the sample
encrypter hands out `key-2`, which replaces it. -/
theorem encryptionkey_EnsureCreated_overwrites_witness :
    ((sample.encryptionkeyResource.EnsureCreated
        (some { sample.freshCC with
          Status := { sample.freshStatus with ClusterEncryptionKey := "key-1" } })
        (Obj.awsConfig sample.cr) ["key-2"]).ctx.map
      fun c => c.Status.ClusterEncryptionKey) = some "key-2" :=
  (encryptionkey_EnsureCreated_overwrites sample.encryptionkeyResource
    { sample.freshCC with Status := { sample.freshStatus with ClusterEncryptionKey := "key-1" } }
    sample.cr ["key-2"] ["key-2"] [] "key-2" rfl rfl).2

namespace tcdp

/-! ### Batch sizes within the desired capacity -/

theorem workerCountRatioRounded_eq_max (workers : Int) (ratio : ℚ) (hw : 0 ≤ workers)
    (hb : workers ≤ 2 ^ 23) (hr0 : 0 < ratio) (hr1 : ratio ≤ 1) :
    workerCountRatioRounded workers ratio =
      max 1 ⌊Go.float32 ((workers : ℚ) * ratio) + 1 / 2⌋ ∧
    Go.float32 ((workers : ℚ) * ratio) ≤ workers := by
  obtain ⟨_, heq⟩ := workerCountRatioRounded_eq_of_nonneg workers ratio hw (by omega) hr0 hr1
  have hwq : (0 : ℚ) ≤ workers := by exact_mod_cast hw
  have hfix : Go.float32 (workers : ℚ) = workers := by
    have h := Go.float32_natCast workers.toNat (by omega)
    have e : ((workers.toNat : ℕ) : ℚ) = (workers : ℚ) := by
      have : ((workers.toNat : ℕ) : ℤ) = workers := Int.toNat_of_nonneg hw
      exact_mod_cast this
    rwa [e] at h
  have hprod : (workers : ℚ) * ratio ≤ workers := by
    calc (workers : ℚ) * ratio ≤ (workers : ℚ) * 1 := mul_le_mul_of_nonneg_left hr1 hwq
      _ = workers := mul_one _
  have hle : Go.float32 ((workers : ℚ) * ratio) ≤ workers := by
    have h := Go.float32_mono (mul_nonneg hwq hr0.le) hprod
    rwa [hfix] at h
  have hv : Go.float32 ((workers : ℚ) * ratio) ≤ 2 ^ 23 := by
    have h1 : (workers : ℚ) ≤ 2 ^ 23 := by exact_mod_cast hb
    exact hle.trans h1
  have hkey := Go.floor_float32_add_half ((workers : ℚ) * ratio) (mul_nonneg hwq hr0.le) hv
  rw [heq, hfix, hkey]
  exact ⟨rfl, hle⟩

/-- C17 fails as stated: for 8388609 workers and the ratio 1 the number
rendered is 8388610, one more than the worker count. -/
theorem workerCountRatio_exceeds_workers :
    workerCountRatio 8388609 1 = "8388610" ∧ workerCountRatioRounded 8388609 1 = 8388610 ∧
    ¬ (workerCountRatioRounded 8388609 1 ≤ 8388609) := by
  decide!

end tcdp

namespace create

/-! ### Running a machine -/

theorem instancesMatch_eq_true_iff (l : List Instance) (state : Int) :
    instancesMatch l state = some true ↔ ∀ i ∈ l, i.StateCode = some state := by
  induction l with
  | nil => simp [instancesMatch]
  | cons i rest ih =>
    rcases hc : i.StateCode with _ | code
    · simp [instancesMatch, hc]
    · by_cases hs : code = state
      · simp [instancesMatch, hc, hs, ih]
      · simp [instancesMatch, hc, hs]

theorem reservationsMatch_eq_true_iff (rs : List Reservation) (state : Int) :
    reservationsMatch rs state = some true ↔
      ∀ r ∈ rs, ∀ i ∈ r.Instances, i.StateCode = some state := by
  induction rs with
  | nil => simp [reservationsMatch]
  | cons r rest ih =>
    have hi := instancesMatch_eq_true_iff r.Instances state
    rcases hm : instancesMatch r.Instances state with _ | _ | _
    · rw [hm] at hi
      simp only [reservationsMatch, hm, List.mem_cons, forall_eq_or_imp]
      simp only [reduceCtorEq, false_iff] at hi
      simp [hi]
    · rw [hm] at hi
      simp only [reservationsMatch, hm, List.mem_cons, forall_eq_or_imp]
      simp only [Option.some.injEq, Bool.false_eq_true, false_iff] at hi
      simp [hi]
    · rw [hm] at hi
      simp only [reservationsMatch, hm, List.mem_cons, forall_eq_or_imp]
      simp only [true_iff] at hi
      rw [ih]
      exact ⟨fun h => ⟨hi, h⟩, fun h => h.2⟩

theorem instancesMatch_ne_none (l : List Instance) (state : Int)
    (h : ∀ i ∈ l, i.StateCode ≠ none) : instancesMatch l state ≠ none := by
  induction l with
  | nil => simp [instancesMatch]
  | cons i rest ih =>
    rcases hc : i.StateCode with _ | code
    · exact absurd hc (h i (List.mem_cons_self _ _))
    · by_cases hs : code = state
      · simpa [instancesMatch, hc, hs] using ih fun j hj => h j (List.mem_cons_of_mem _ hj)
      · simp [instancesMatch, hc, hs]

theorem reservationsMatch_ne_none (rs : List Reservation) (state : Int)
    (h : ∀ r ∈ rs, ∀ i ∈ r.Instances, i.StateCode ≠ none) : reservationsMatch rs state ≠ none := by
  induction rs with
  | nil => simp [reservationsMatch]
  | cons r rest ih =>
    have hi := instancesMatch_ne_none r.Instances state (h r (List.mem_cons_self _ _))
    have hr := ih fun q hq => h q (List.mem_cons_of_mem _ hq)
    rcases hm : instancesMatch r.Instances state with _ | _ | _
    · exact absurd hm hi
    · simp [reservationsMatch, hm]
    · simpa [reservationsMatch, hm] using hr

theorem allExistingInstancesMatch_eq_true_iff (instances : DescribeInstancesOutput) (state : Int) :
    allExistingInstancesMatch instances state = some true ↔
      ∀ rs, instances.Reservations = some rs →
        ∀ r ∈ rs, ∀ i ∈ r.Instances, i.StateCode = some state := by
  rcases hr : instances.Reservations with _ | rs
  · simp [allExistingInstancesMatch, hr]
  · simp [allExistingInstancesMatch, hr, reservationsMatch_eq_true_iff]

end create

/-- C18: `runMachine` issues a `RunInstances` call exactly when the describe
call succeeded and `allExistingInstancesMatch` holds for the terminated state,
which is the case exactly when every instance of every returned reservation has
state code 48 (so also for nil or empty `Reservations`); when some returned
instance has another state, neither `RunInstances` nor `CreateTags` is called,
and `runMachine` returns nil after the describe call alone, the instances
carrying a state as the EC2 API returns them. -/
theorem runMachine_spec {σ : Type} (ec2Client : create.EC2Client σ) (awsNode : create.Node)
    (clusterName name : String) (s : σ) :
    ((∃ c ∈ (create.runMachine ec2Client awsNode clusterName name s).calls,
        c.isRunInstances = true) ↔
      ∃ instances s1,
        ec2Client.DescribeInstances
          [⟨"tag:" ++ create.tagKeyName, [name]⟩, ⟨"tag:" ++ create.tagKeyCluster, [clusterName]⟩]
          s = (Except.ok instances, s1) ∧
        create.allExistingInstancesMatch instances create.EC2TerminatedState = some true) ∧
    (∀ instances : create.DescribeInstancesOutput,
      create.allExistingInstancesMatch instances create.EC2TerminatedState = some true ↔
        ∀ rs, instances.Reservations = some rs →
          ∀ r ∈ rs, ∀ i ∈ r.Instances, i.StateCode = some 48) ∧
    create.allExistingInstancesMatch ⟨none⟩ create.EC2TerminatedState = some true ∧
    create.allExistingInstancesMatch ⟨some []⟩ create.EC2TerminatedState = some true ∧
    (∀ instances s1 rs,
      ec2Client.DescribeInstances
          [⟨"tag:" ++ create.tagKeyName, [name]⟩, ⟨"tag:" ++ create.tagKeyCluster, [clusterName]⟩]
          s = (Except.ok instances, s1) →
      instances.Reservations = some rs →
      (∃ r ∈ rs, ∃ i ∈ r.Instances, i.StateCode ≠ some 48) →
      (∀ c ∈ (create.runMachine ec2Client awsNode clusterName name s).calls,
        c.isRunInstances = false ∧ c.isCreateTags = false) ∧
      ((∀ r ∈ rs, ∀ i ∈ r.Instances, i.StateCode ≠ none) →
        (create.runMachine ec2Client awsNode clusterName name s).outcome = Outcome.ok ∧
        (create.runMachine ec2Client awsNode clusterName name s).state = s1 ∧
        (create.runMachine ec2Client awsNode clusterName name s).calls =
          [create.EC2Call.DescribeInstances
            [⟨"tag:" ++ create.tagKeyName, [name]⟩,
             ⟨"tag:" ++ create.tagKeyCluster, [clusterName]⟩]])) := by
  refine ⟨?_, fun instances => create.allExistingInstancesMatch_eq_true_iff instances _, rfl, rfl,
    ?_⟩
  · rcases hd : ec2Client.DescribeInstances
        [⟨"tag:" ++ create.tagKeyName, [name]⟩, ⟨"tag:" ++ create.tagKeyCluster, [clusterName]⟩]
        s with ⟨_ | instances, s1⟩
    · simp [create.runMachine, hd, create.EC2Call.isRunInstances]
    · rcases hm : create.allExistingInstancesMatch instances create.EC2TerminatedState
        with _ | _ | _
      · simp [create.runMachine, hd, hm, create.EC2Call.isRunInstances]
      · simp [create.runMachine, hd, hm, create.EC2Call.isRunInstances]
      · rcases hrun : ec2Client.RunInstances ⟨awsNode.ImageID, awsNode.InstanceType, 1, 1⟩ s1
          with ⟨_ | reservation, s2⟩
        · simp [create.runMachine, hd, hm, hrun, create.EC2Call.isRunInstances]
        · rcases hins : reservation.Instances with _ | ⟨first, rest⟩
          · simp [create.runMachine, hd, hm, hrun, hins, create.EC2Call.isRunInstances]
          · rcases ht : ec2Client.CreateTags
                ⟨[first.InstanceId],
                  [(create.tagKeyName, name), (create.tagKeyCluster, clusterName)]⟩ s2
              with ⟨_ | _, s3⟩ <;>
            simp [create.runMachine, hd, hm, hrun, hins, ht, create.EC2Call.isRunInstances]
  · intro instances s1 rs hd hrs hex
    have hne : create.allExistingInstancesMatch instances create.EC2TerminatedState ≠ some true := by
      intro h
      obtain ⟨r, hr, i, hi, hc⟩ := hex
      exact hc ((create.allExistingInstancesMatch_eq_true_iff instances _).1 h rs hrs r hr i hi)
    rcases hm : create.allExistingInstancesMatch instances create.EC2TerminatedState
      with _ | _ | _
    · refine ⟨by simp [create.runMachine, hd, hm, create.EC2Call.isRunInstances,
        create.EC2Call.isCreateTags], fun hall => ?_⟩
      have := create.reservationsMatch_ne_none rs create.EC2TerminatedState hall
      simp [create.allExistingInstancesMatch, hrs] at hm
      exact absurd hm this
    · simp [create.runMachine, hd, hm, create.EC2Call.isRunInstances,
        create.EC2Call.isCreateTags]
    · exact absurd hm hne

theorem runMachine_examples :
    (create.runMachine sample.ec2Client sample.node "5xchu" "master-1"
        ⟨some [⟨[⟨some "i-0000", some 48⟩, ⟨some "i-0001", some 16⟩]⟩]⟩).calls =
      [create.EC2Call.DescribeInstances [⟨"tag:Name", ["master-1"]⟩, ⟨"tag:Cluster", ["5xchu"]⟩]] ∧
    (create.runMachine sample.ec2Client sample.node "5xchu" "master-1"
        ⟨some [⟨[⟨some "i-0000", some 48⟩]⟩]⟩).calls =
      [create.EC2Call.DescribeInstances [⟨"tag:Name", ["master-1"]⟩, ⟨"tag:Cluster", ["5xchu"]⟩],
        create.EC2Call.RunInstances ⟨"ami-0123", "m3.large", 1, 1⟩,
        create.EC2Call.CreateTags
          ⟨[some "i-0001"], [("Name", "master-1"), ("Cluster", "5xchu")]⟩] ∧
    (create.runMachine sample.ec2Client sample.node "5xchu" "master-1" ⟨none⟩).calls.length = 3 := by
  refine ⟨?_, ?_, ?_⟩ <;> decide

namespace Go

theorem quantum_le {z : ℚ} (hz : 0 < z) : quantum z ≤ z / 8388608 + 1 / 8388608 := by
  unfold quantum
  rcases le_total (ilog2 z) (-126) with h | h
  · rw [max_eq_right h]
    have e : (2 : ℚ) ^ ((-126 : ℤ) - 23) ≤ 1 / 8388608 := by
      rw [show ((-126 : ℤ) - 23) = -149 by norm_num, zpow_neg, ← one_div]
      apply one_div_le_one_div_of_le (by norm_num)
      rw [show (149 : ℤ) = ((149 : ℕ) : ℤ) by norm_num, zpow_natCast]
      norm_num
    have : 0 ≤ z / 8388608 := by positivity
    linarith
  · rw [max_eq_left h]
    have hs := (ilog2_spec z (ne_of_gt hz)).1
    rw [abs_of_pos hz] at hs
    have e : (2 : ℚ) ^ (ilog2 z - 23) = 2 ^ ilog2 z / 8388608 := by
      rw [zpow_sub₀ (two_ne_zero), show (23 : ℤ) = ((23 : ℕ) : ℤ) by norm_num, zpow_natCast]
      norm_num
    rw [e]
    have : (2 : ℚ) ^ ilog2 z / 8388608 ≤ z / 8388608 :=
      div_le_div_of_nonneg_right hs (by norm_num)
    linarith

theorem float32_le_mul_add {z : ℚ} (hz : 0 ≤ z) :
    float32 z ≤ z + z / 16777216 + 1 / 16777216 := by
  rcases eq_or_lt_of_le hz with h | h
  · rw [← h, float32_zero]
    norm_num
  · have h1 := float32_le_add_half_quantum h
    have h2 := quantum_le h
    linarith

end Go

namespace tcdp

theorem workerCountRatioRounded_le_of_ratio_le (workers : Int) (ratio : ℚ) (hw : 1 ≤ workers)
    (hb : workers < 2 ^ 63) (hr0 : 0 < ratio) (hr1 : ratio ≤ 3 / 4) :
    1 ≤ workerCountRatioRounded workers ratio ∧ workerCountRatioRounded workers ratio ≤ workers := by
  have hwq : (1 : ℚ) ≤ workers := by exact_mod_cast hw
  have hbq : (workers : ℚ) + 1 ≤ 2 ^ 63 := by
    have : workers + 1 ≤ 2 ^ 63 := by omega
    exact_mod_cast this
  have h1n : 0 ≤ Go.float32 (workers : ℚ) := Go.float32_nonneg (by linarith)
  have h1 := Go.float32_le_mul_add (z := (workers : ℚ)) (by linarith)
  have h2n : 0 ≤ Go.float32 (workers : ℚ) * ratio := mul_nonneg h1n hr0.le
  have h2 : Go.float32 (workers : ℚ) * ratio ≤ Go.float32 (workers : ℚ) * (3 / 4) :=
    mul_le_mul_of_nonneg_left hr1 h1n
  have h3n : 0 ≤ Go.float32 (Go.float32 (workers : ℚ) * ratio) := Go.float32_nonneg h2n
  have h3 := Go.float32_le_mul_add h2n
  have h4n : 0 ≤ Go.float32 (Go.float32 (Go.float32 (workers : ℚ) * ratio) + 1 / 2) :=
    Go.float32_nonneg (by linarith)
  have h4 := Go.float32_le_mul_add
    (z := Go.float32 (Go.float32 (workers : ℚ) * ratio) + 1 / 2) (by linarith)
  have hlt : Go.float32 (Go.float32 (Go.float32 (workers : ℚ) * ratio) + 1 / 2) <
      (workers : ℚ) + 1 := by linarith
  have h5 := Go.intOfFloat_of_nonneg h4n (lt_of_lt_of_le hlt hbq)
  have hfl0 : 0 ≤ ⌊Go.float32 (Go.float32 (Go.float32 (workers : ℚ) * ratio) + 1 / 2)⌋ :=
    Int.floor_nonneg.mpr h4n
  have hfl : ⌊Go.float32 (Go.float32 (Go.float32 (workers : ℚ) * ratio) + 1 / 2)⌋ < workers + 1 := by
    apply Int.floor_lt.mpr
    push_cast
    exact hlt
  unfold workerCountRatioRounded
  simp only [h5]
  split_ifs with h0
  · exact ⟨le_rfl, hw⟩
  · omega

/-- C17 (amended): for a worker count `n` from 1 to `2 ^ 23` and every ratio in
`(0, 1]` the number `workerCountRatio` renders is at most `n` (and at least 1);
for the ratios 0.3 and 0.7 of `newAutoScalingGroup` this holds for every
positive 64 bit count; hence `MaxBatchSize` and `MinInstancesInService` lie
between 1 and the count `minDesiredWorkers` returned, from which they are
computed, whenever that count is `n`. -/
theorem workerCountRatio_le_workers (n : Int) (hn1 : 1 ≤ n) :
    (n ≤ 2 ^ 23 → ∀ ratio : ℚ, 0 < ratio → ratio ≤ 1 →
      workerCountRatio n ratio = Go.Itoa (workerCountRatioRounded n ratio) ∧
      1 ≤ workerCountRatioRounded n ratio ∧ workerCountRatioRounded n ratio ≤ n) ∧
    (n < 2 ^ 63 →
      1 ≤ workerCountRatioRounded n (Go.float32 (3 / 10)) ∧
      workerCountRatioRounded n (Go.float32 (3 / 10)) ≤ n ∧
      1 ≤ workerCountRatioRounded n (Go.float32 (7 / 10)) ∧
      workerCountRatioRounded n (Go.float32 (7 / 10)) ≤ n) ∧
    (n < 2 ^ 63 →
      ∀ (σ : Type) (deps : Deps) (r : Resource) (cc : controllercontext.Context σ)
        (cr : AWSConfig) (asg : template.ParamsMainAutoScalingGroup),
        r.newAutoScalingGroup deps (some cc) cr = Except.ok asg →
        minDesiredWorkers cr.ScalingMin cr.ScalingMax
          cc.Status.TenantClusterTCCPASGDesiredCapacity = n →
        ∃ a b : Int, asg.MaxBatchSize = Go.Itoa a ∧ asg.MinInstancesInService = Go.Itoa b ∧
          1 ≤ a ∧ a ≤ n ∧ 1 ≤ b ∧ b ≤ n) := by
  have h3 : n < 2 ^ 63 → 1 ≤ workerCountRatioRounded n (Go.float32 (3 / 10)) ∧
      workerCountRatioRounded n (Go.float32 (3 / 10)) ≤ n := fun hn2 =>
    workerCountRatioRounded_le_of_ratio_le n _ hn1 hn2 (by decide!) (by decide!)
  have h7 : n < 2 ^ 63 → 1 ≤ workerCountRatioRounded n (Go.float32 (7 / 10)) ∧
      workerCountRatioRounded n (Go.float32 (7 / 10)) ≤ n := fun hn2 =>
    workerCountRatioRounded_le_of_ratio_le n _ hn1 hn2 (by decide!) (by decide!)
  refine ⟨fun hn2 ratio hr0 hr1 => ?_, fun hn2 => ⟨(h3 hn2).1, (h3 hn2).2, (h7 hn2).1, (h7 hn2).2⟩,
    fun hn2 σ deps r cc cr asg hasg hm => ?_⟩
  · obtain ⟨heq, hle⟩ := workerCountRatioRounded_eq_max n ratio (by omega) hn2 hr0 hr1
    refine ⟨rfl, ?_, ?_⟩
    · rw [heq]
      exact le_max_left _ _
    · rw [heq]
      apply max_le hn1
      have : Go.float32 ((n : ℚ) * ratio) + 1 / 2 < ((n + 1 : ℤ) : ℚ) := by
        push_cast
        linarith
      have := Int.floor_lt.mpr this
      omega
  · simp only [Resource.newAutoScalingGroup, controllercontext.FromContext, Except.ok.injEq]
      at hasg
    subst hasg
    refine ⟨workerCountRatioRounded n (Go.float32 (3 / 10)),
      workerCountRatioRounded n (Go.float32 (7 / 10)), ?_, ?_, (h3 hn2).1, (h3 hn2).2,
      (h7 hn2).1, (h7 hn2).2⟩
    · simp only [hm]
      rfl
    · simp only [hm]
      rfl

/-- Witness for C17 (amended) at 5 workers, the count of the sample cluster:
the batch of 0.3 is 2 and the number kept in service at 0.7 is 4. -/
theorem workerCountRatio_le_workers_witness :
    workerCountRatio 5 (Go.float32 (3 / 10)) = "2" ∧ workerCountRatio 5 (Go.float32 (7 / 10)) = "4" ∧
    (∃ a b : Int, workerCountRatio 5 (Go.float32 (3 / 10)) = Go.Itoa a ∧
      workerCountRatio 5 (Go.float32 (7 / 10)) = Go.Itoa b ∧ 1 ≤ a ∧ a ≤ 5 ∧ 1 ≤ b ∧ b ≤ 5) :=
  ⟨by decide!, by decide!,
    (workerCountRatio_le_workers 5 (by decide)).2.2 (by decide) Store sample.tcdpDeps
      sample.tcdpResource sample.cc sample.cr _ rfl (by decide)⟩

end tcdp

/-! ### Idempotence of `EnsureCreated` -/

theorem WaitedIsDescribed.createdIsDescribed {σ : Type} {c : cloudformation.Client σ}
    (h : WaitedIsDescribed c) : CreatedIsDescribed c :=
  fun i s s2 s3 hC hW => h i i.StackName s s2 s3 hC hW

theorem Store.waitingClient_waitedIsDescribed : WaitedIsDescribed Store.waitingClient := by
  intro i name s s2 s3 _ hW
  simp only [Store.waitingClient] at hW ⊢
  split_ifs at hW with hl
  · simp only [Prod.mk.injEq, true_and] at hW
    subst hW
    exact ⟨"CREATE_COMPLETE", s2, by simp [hl], by decide⟩
  · simp at hW

/-- Idempotence of the tenant data plane: over a stack client with the property
`WaitedIsDescribed`, if a first `EnsureCreated` starts from an absent stack and
returns nil, a second one on the state it left returns nil as well and issues
no `CreateStack` call; the two together issue exactly one. -/
theorem tcdp_EnsureCreated_idempotent {σ : Type} (deps : tcdp.Deps) (r : tcdp.Resource)
    (ctx : Option (controllercontext.Context σ)) (obj : Obj) (cr : AWSConfig)
    (cc : controllercontext.Context σ) (s s1 : σ) (err : Error)
    (hobj : key.ToCustomObject obj = Except.ok cr)
    (hctx : controllercontext.FromContext ctx = Except.ok cc)
    (hmodel : WaitedIsDescribed cc.TenantCluster)
    (hdesc : cc.TenantCluster.DescribeStacks (key.MainHostPreStackName cr) s = (Except.error err, s1))
    (herr : IsNotExists (some err) = true)
    (hfirst : (r.EnsureCreated deps ctx obj s).outcome = Outcome.ok) :
    (r.EnsureCreated deps ctx obj (r.EnsureCreated deps ctx obj s).state).outcome = Outcome.ok ∧
    (r.EnsureCreated deps ctx obj (r.EnsureCreated deps ctx obj s).state).calls.filter
      Call.isCreateStack = [] ∧
    (((r.EnsureCreated deps ctx obj s).calls ++
      (r.EnsureCreated deps ctx obj (r.EnsureCreated deps ctx obj s).state).calls).filter
      Call.isCreateStack).length = 1 := by
  have hrun : r.EnsureCreated deps ctx obj s = tcdp.Resource.createStack deps r ctx cc cr s1
      [Call.DescribeStacks Account.TenantCluster (key.MainHostPreStackName cr)] := by
    simp [tcdp.Resource.EnsureCreated, hobj, hctx, hdesc, herr]
  rw [hrun] at hfirst ⊢
  simp only [tcdp.Resource.createStack] at hfirst ⊢
  rcases hP : r.newParams deps ctx cr with e | params
  · simp [hP] at hfirst
  · simp only [hP] at hfirst ⊢
    rcases hR : deps.Render params with e | body
    · simp [hR] at hfirst
    · simp only [hR] at hfirst ⊢
      rcases hC : cc.TenantCluster.CreateStack
          ⟨[capabilityNamesIAM], deps.EnableTerminationProtection, tcdp.stackName deps.a cr,
            r.getCloudFormationTags cr, body⟩ s1 with ⟨oc, s2⟩
      cases oc with
      | some e => simp [hC] at hfirst
      | none =>
        simp only [hC] at hfirst ⊢
        rcases hW : cc.TenantCluster.WaitUntilStackCreateComplete (key.MainHostPreStackName cr) s2
          with ⟨ow, s3⟩
        cases ow with
        | some e => simp [hW] at hfirst
        | none =>
          obtain ⟨status, s4, hD, hne⟩ := hmodel _ _ s1 s2 s3 hC hW
          simp [tcdp.Resource.EnsureCreated, hobj, hctx, hD, hne, Call.isCreateStack]

/-- The tenant data plane over `Store.waitingClient`, starting with no stack:
the stack is created under `stackName`, the wait for `key.MainHostPreStackName`
fails, and `EnsureCreated` returns the error of the wait. -/
theorem tcdp_EnsureCreated_absent_wait_fails :
    (sample.tcdpResource.EnsureCreated sample.tcdpDeps (some sample.waitingCC)
      (Obj.awsConfig sample.cr) []).outcome = Outcome.error (Error.other "ResourceNotReady") ∧
    (sample.tcdpResource.EnsureCreated sample.tcdpDeps (some sample.waitingCC)
      (Obj.awsConfig sample.cr) []).state = [("cluster-5XCHU-tcdp", "CREATE_COMPLETE")] := by
  decide

/-- C7: over a stack client in which a successful `CreateStack` followed by a
successful wait makes `DescribeStacks` of the name created and waited for
return that one stack in a status other than `CREATE_FAILED`, if a first
`EnsureCreated` starts from an absent stack and returns nil, then a second
`EnsureCreated` on the same object returns nil and issues no `CreateStack`
call, so that the two issue exactly one; for the control plane initializer and
for the tenant data plane. -/
theorem EnsureCreated_idempotent {σ : Type} (ctx : Option (controllercontext.Context σ))
    (obj : Obj) (cr : AWSConfig) (cc : controllercontext.Context σ) (s s1 : σ) (err : Error)
    (hobj : key.ToCustomObject obj = Except.ok cr)
    (hctx : controllercontext.FromContext ctx = Except.ok cc)
    (herr : IsNotExists (some err) = true) :
    (∀ (deps : cpi.Deps) (r : cpi.Resource),
      CreatedIsDescribed cc.ControlPlane →
      cc.ControlPlane.DescribeStacks (key.MainHostPreStackName cr) s = (Except.error err, s1) →
      (r.EnsureCreated deps ctx obj s).outcome = Outcome.ok →
      (r.EnsureCreated deps ctx obj (r.EnsureCreated deps ctx obj s).state).outcome = Outcome.ok ∧
      (r.EnsureCreated deps ctx obj (r.EnsureCreated deps ctx obj s).state).calls.filter
        Call.isCreateStack = [] ∧
      (((r.EnsureCreated deps ctx obj s).calls ++
        (r.EnsureCreated deps ctx obj (r.EnsureCreated deps ctx obj s).state).calls).filter
        Call.isCreateStack).length = 1) ∧
    (∀ (deps : tcdp.Deps) (r : tcdp.Resource),
      WaitedIsDescribed cc.TenantCluster →
      cc.TenantCluster.DescribeStacks (key.MainHostPreStackName cr) s = (Except.error err, s1) →
      (r.EnsureCreated deps ctx obj s).outcome = Outcome.ok →
      (r.EnsureCreated deps ctx obj (r.EnsureCreated deps ctx obj s).state).outcome = Outcome.ok ∧
      (r.EnsureCreated deps ctx obj (r.EnsureCreated deps ctx obj s).state).calls.filter
        Call.isCreateStack = [] ∧
      (((r.EnsureCreated deps ctx obj s).calls ++
        (r.EnsureCreated deps ctx obj (r.EnsureCreated deps ctx obj s).state).calls).filter
        Call.isCreateStack).length = 1) :=
  ⟨fun deps r hm hd hf =>
      cpi_EnsureCreated_idempotent deps r ctx obj cr cc s s1 err hobj hctx hm hd herr hf,
    fun deps r hm hd hf =>
      tcdp_EnsureCreated_idempotent deps r ctx obj cr cc s s1 err hobj hctx hm hd herr hf⟩

/-- Witness for C7 on the sample cluster over `Store.waitingClient`, starting
with no stack: the first call of the control plane initializer creates the
stack and returns nil, the second returns nil after the query alone. -/
theorem EnsureCreated_idempotent_witness :
    (sample.cpiResource.EnsureCreated sample.cpiDeps (some sample.waitingCC)
      (Obj.awsConfig sample.cr) []).outcome = Outcome.ok ∧
    (sample.cpiResource.EnsureCreated sample.cpiDeps (some sample.waitingCC)
      (Obj.awsConfig sample.cr)
      (sample.cpiResource.EnsureCreated sample.cpiDeps (some sample.waitingCC)
        (Obj.awsConfig sample.cr) []).state).outcome = Outcome.ok ∧
    (sample.cpiResource.EnsureCreated sample.cpiDeps (some sample.waitingCC)
      (Obj.awsConfig sample.cr)
      (sample.cpiResource.EnsureCreated sample.cpiDeps (some sample.waitingCC)
        (Obj.awsConfig sample.cr) []).state).calls =
      [Call.DescribeStacks Account.ControlPlane "cluster-5xchu-host-setup"] :=
  ⟨rfl,
    ((EnsureCreated_idempotent (some sample.waitingCC) (Obj.awsConfig sample.cr) sample.cr
      sample.waitingCC [] [] Error.notExists rfl rfl rfl).1 sample.cpiDeps sample.cpiResource
      Store.waitingClient_waitedIsDescribed.createdIsDescribed rfl rfl).1,
    by decide⟩

end AwsOperator
